import Mathlib

/-!
Verification development for the vercel-slm log-ingestion webhook.

The repository holds two variants of the same serverless handler:
* `src/unnamed/part_000` (the full variant: API-key auth, attempt counters,
  brute-force detection, webhook alerts) is embedded in namespace `Full`;
* `src/api/detect.js` (the simple variant: no auth, no counters, signed
  evidence URLs, `log_source` from the `x-source` header) is embedded in
  namespace `Simple`.

JS strings are modelled by `String` (with helpers recursing on `String.data`),
JS numbers that the code uses (millisecond clocks, counters) by `Int`, request
bodies by a small `Json` type, and the external collaborators (Supabase blob
store, table store, alert webhook) by explicit behavior records plus an
effect trace.  Regular expressions are embedded as executable matchers that
implement the exact pattern of the source, including word boundaries,
whitespace classes, and leftmost-match scanning.
-/

set_option maxHeartbeats 1000000

/-- Model of a parsed JSON value (the request body). -/
inductive Json where
  | null
  | bool (b : Bool)
  | num (n : Int)
  | str (s : String)
  | arr (elems : List Json)
  | obj (fields : List (String × Json))

/-- One lowercase hexadecimal digit. -/
def hexDigit (n : Nat) : Char :=
  if n < 10 then Char.ofNat (48 + n) else Char.ofNat (87 + n)

/-- Four-digit lowercase hexadecimal rendering of a code point (the `XXXX`
of a `\uXXXX` escape). -/
def uHex4 (n : Nat) : String :=
  String.mk [hexDigit (n / 4096 % 16), hexDigit (n / 256 % 16),
             hexDigit (n / 16 % 16), hexDigit (n % 16)]

/-- Escape one character the way `JSON.stringify` quotes string contents:
quote and backslash get a backslash, the named control escapes are used for
backspace, form feed, newline, carriage return and tab, every other control
character below U+0020 becomes a `\uXXXX` escape, and all remaining
characters pass through unchanged. -/
def jsonEscapeChar (c : Char) : String :=
  if c = '"' then "\\\""
  else if c = '\\' then "\\\\"
  else if c = Char.ofNat 8 then "\\b"
  else if c = Char.ofNat 12 then "\\f"
  else if c = '\n' then "\\n"
  else if c = '\r' then "\\r"
  else if c = '\t' then "\\t"
  else if c.toNat < 32 then "\\u" ++ uHex4 c.toNat
  else String.singleton c

/-- Escape a character list for a JSON string literal. -/
def jsonEscape : List Char → String
  | [] => ""
  | c :: cs => jsonEscapeChar c ++ jsonEscape cs

/-- Quote a string as a JSON string literal. -/
def jsonQuote (s : String) : String :=
  "\"" ++ jsonEscape s.data ++ "\""

mutual
/-- Model of `JSON.stringify` on a parsed body. -/
def Json.stringify : Json → String
  | .null => "null"
  | .bool b => if b then "true" else "false"
  | .num n => toString n
  | .str s => jsonQuote s
  | .arr xs => "[" ++ Json.stringifyElems xs ++ "]"
  | .obj fs => "\x7b" ++ Json.stringifyFields fs ++ "\x7d"
termination_by structural j => j

/-- Comma-separated serialization of array elements. -/
def Json.stringifyElems : List Json → String
  | [] => ""
  | [x] => Json.stringify x
  | x :: xs => Json.stringify x ++ "," ++ Json.stringifyElems xs
termination_by structural l => l

/-- Comma-separated serialization of object fields. -/
def Json.stringifyFields : List (String × Json) → String
  | [] => ""
  | [(k, v)] => jsonQuote k ++ ":" ++ Json.stringify v
  | (k, v) :: fs => jsonQuote k ++ ":" ++ Json.stringify v ++ "," ++ Json.stringifyFields fs
termination_by structural l => l
end

mutual
/-- Model of the JS `String(x)` coercion on a JSON value. -/
def jsToString : Json → String
  | .null => "null"
  | .bool b => if b then "true" else "false"
  | .num n => toString n
  | .str s => s
  | .arr xs => jsArrToString xs
  | .obj _ => "[object Object]"

/-- JS array-to-string: elements joined by commas. -/
def jsArrToString : List Json → String
  | [] => ""
  | [x] => jsElemToString x
  | x :: xs => jsElemToString x ++ "," ++ jsArrToString xs
termination_by structural l => l

/-- JS array element stringification: null renders as the empty string,
every other value as its ordinary string coercion. -/
def jsElemToString : Json → String
  | .null => ""
  | .bool b => if b then "true" else "false"
  | .num n => toString n
  | .str s => s
  | .arr xs => jsArrToString xs
  | .obj _ => "[object Object]"
termination_by structural j => j
end

/-- Property access `payload?.k`: an object field lookup, `undefined` elsewhere. -/
def jGet : Json → String → Option Json
  | .obj fields, k => fields.lookup k
  | _, _ => none

/-- JS truthiness of a JSON value. -/
def jTruthy : Json → Bool
  | .null => false
  | .bool b => b
  | .num n => n != 0
  | .str s => s != ""
  | .arr _ => true
  | .obj _ => true

/-- The `message` value both handlers compute:
`payload?.message || (typeof payload === "string" ? payload : JSON.stringify(payload))`. -/
def messageVal (payload : Json) : Json :=
  match jGet payload "message" with
  | some v => if jTruthy v then v else messageFallback payload
  | none => messageFallback payload
where
  /-- The right operand of the `||`: the payload itself when it is a string,
  otherwise its JSON serialization. -/
  messageFallback : Json → Json
    | .str s => .str s
    | p => .str (Json.stringify p)

/-- The message text, after the `String(message)` coercion both handlers apply. -/
def messageText (payload : Json) : String :=
  jsToString (messageVal payload)

/-- JS `\w` word-character class: ASCII letters, digits, underscore. -/
def isWordChar (c : Char) : Bool :=
  c.isAlphanum || c == '_'

/-- JS `\s` whitespace class: tab, line feed, vertical tab, form feed,
carriage return, space, no-break space, the ogham space mark, the en-quad
to hair-space range, line and paragraph separators, the narrow no-break,
medium mathematical and ideographic spaces, and the byte-order mark. -/
def isJsSpace (c : Char) : Bool :=
  (9 ≤ c.toNat && c.toNat ≤ 13) || c == ' ' ||
  c.toNat == 160 || c.toNat == 5760 ||
  (8192 ≤ c.toNat && c.toNat ≤ 8202) ||
  c.toNat == 8232 || c.toNat == 8233 || c.toNat == 8239 ||
  c.toNat == 8287 || c.toNat == 12288 || c.toNat == 65279

/-- The single-quote character (written via its code point). -/
def squote : Char := Char.ofNat 39

/-- Substring test on character lists (needle occurs contiguously in hay). -/
def listContainsSub : List Char → List Char → Bool
  | [], needle => needle.isEmpty
  | c :: t, needle => needle.isPrefixOf (c :: t) || listContainsSub t needle

/-- Lowercase a character list (the case folding of the `/i` flag). -/
def toLowerL (cs : List Char) : List Char :=
  cs.map Char.toLower

/-- Case-insensitive substring test on strings (models a `/pat/i` literal test). -/
def containsCI (text pat : String) : Bool :=
  listContainsSub (toLowerL text.data) pat.data

/-- Split a character list into its leading run of digits and the rest. -/
def digitsSplit : List Char → List Char × List Char
  | [] => ([], [])
  | c :: cs =>
      if c.isDigit then
        let p := digitsSplit cs
        (c :: p.1, p.2)
      else ([], c :: cs)

/-- Word boundary on the left of position `i` (start of text, or a non-word
character just before). -/
def boundaryLeft (hay : List Char) (i : Nat) : Bool :=
  i == 0 || !(isWordChar (hay.getD (i - 1) ' '))

/-- Word boundary on the right of position `j` (end of text, or a non-word
character at `j`). -/
def boundaryRight (hay : List Char) (j : Nat) : Bool :=
  !(isWordChar (hay.getD j ' '))

/-- Occurrence of a word-delimited literal pattern at position `i` (the
patterns this is used with begin and end with word characters, so `\b`
amounts to the neighbouring characters not being word characters). -/
def boundedAt (hay : List Char) (i : Nat) (pat : List Char) : Bool :=
  pat.isPrefixOf (hay.drop i) && boundaryLeft hay i && boundaryRight hay (i + pat.length)

/-- Some position of the hay carries a word-delimited occurrence of the pattern. -/
def boundedSomewhere (hay : List Char) (pat : List Char) : Bool :=
  (List.range hay.length).any fun i => boundedAt hay i pat

/-- JS `.` (without the dotAll flag) excludes line terminators; this checks a
segment contains none. -/
def noLineTerm (cs : List Char) : Bool :=
  cs.all fun c => !(c == '\n' || c == '\r' || c == ' ' || c == ' ')

/-- Exact dotted-quad shape: four groups of one to three digits separated by
dots, spanning the whole list.  This is the spec-side reading of an
IPv4-shaped substring. -/
def isQuad (s : List Char) : Bool :=
  match digitsSplit s with
  | (d1, '.' :: r1) =>
    !d1.isEmpty && d1.length ≤ 3 &&
    (match digitsSplit r1 with
     | (d2, '.' :: r2) =>
       !d2.isEmpty && d2.length ≤ 3 &&
       (match digitsSplit r2 with
        | (d3, '.' :: r3) =>
          !d3.isEmpty && d3.length ≤ 3 &&
          (match digitsSplit r3 with
           | (d4, rest) => !d4.isEmpty && d4.length ≤ 3 && rest.isEmpty)
        | _ => false)
     | _ => false)
  | _ => false

namespace Full

/-- Match of `(\d{1,3}\.){3}\d{1,3}\b` at the head of the suffix `cs` (the
leading `\b` is checked by the scanner).  Each of the first three groups is a
digit run of length one to three followed by a literal dot; the final group
must exhaust its digit run (a longer run leaves a digit, a word character,
after any one-to-three-digit prefix, so the trailing `\b` fails) and be
followed by a non-word character or the end of the text. -/
def quadAt (cs : List Char) : Option (List Char) :=
  match digitsSplit cs with
  | (d1, '.' :: r1) =>
    if d1.isEmpty || decide (3 < d1.length) then none else
    match digitsSplit r1 with
    | (d2, '.' :: r2) =>
      if d2.isEmpty || decide (3 < d2.length) then none else
      match digitsSplit r2 with
      | (d3, '.' :: r3) =>
        if d3.isEmpty || decide (3 < d3.length) then none else
        match digitsSplit r3 with
        | (d4, r4) =>
          if d4.isEmpty || decide (3 < d4.length) then none
          else if isWordChar (r4.headD ' ') then none
          else some (d1 ++ '.' :: (d2 ++ '.' :: (d3 ++ '.' :: d4)))
      | _ => none
    | _ => none
  | _ => none

/-- Leftmost scan of `text.match(IP_RE)` for the bounded pattern: try each
position in order, tracking whether the previous character is a word
character (the leading `\b`). -/
def scanQuad : Bool → List Char → Option (List Char)
  | _, [] => none
  | prevW, c :: rest =>
    match (if prevW then none else quadAt (c :: rest)) with
    | some q => some q
    | none => scanQuad (isWordChar c) rest

/-- Embedding of `extractIp` from `src/unnamed/part_000`: falsy guard, then
first match of `/\b(\d{1,3}\.){3}\d{1,3}\b/`. -/
def extractIp (text : String) : Option String :=
  if text == "" then none
  else (scanQuad false text.data).map fun q => String.mk q

/-- Embedding of `FAILED_LOGIN_RE` from `src/unnamed/part_000`:
`/failed login|authentication failed|invalid credentials|login failed|status=FAILED/i`. -/
def matchFailedLogin (text : String) : Bool :=
  containsCI text "failed login" || containsCI text "authentication failed" ||
  containsCI text "invalid credentials" || containsCI text "login failed" ||
  containsCI text "status=failed"

/-- Embedding of the admin test `/user=admin|username=admin|user:admin/i`. -/
def matchAdmin (text : String) : Bool :=
  containsCI text "user=admin" || containsCI text "username=admin" ||
  containsCI text "user:admin"

/-- Match of `\bor\s+1\s*=\s*1\b` at position `i` of the lowered text. -/
def orTautAt (cs : List Char) (i : Nat) : Bool :=
  boundaryLeft cs i &&
  (['o', 'r'].isPrefixOf (cs.drop i) &&
    (let r1 := (cs.drop i).drop 2
     let w1 := r1.takeWhile isJsSpace
     let r2 := r1.dropWhile isJsSpace
     !w1.isEmpty &&
       (match r2 with
        | '1' :: r3 =>
          (match r3.dropWhile isJsSpace with
           | '=' :: r5 =>
             (match r5.dropWhile isJsSpace with
              | '1' :: r7 => !(isWordChar (r7.headD ' '))
              | _ => false)
           | _ => false)
        | _ => false)))

/-- Match of `\bselect\s+\*\b` at position `i` of the lowered text: after the
star, `\b` holds only when a word character follows (the star itself is a
non-word character). -/
def selectStarAt (cs : List Char) (i : Nat) : Bool :=
  boundaryLeft cs i &&
  ("select".data.isPrefixOf (cs.drop i) &&
    (let r1 := (cs.drop i).drop 6
     let w1 := r1.takeWhile isJsSpace
     let r2 := r1.dropWhile isJsSpace
     !w1.isEmpty &&
       (match r2 with
        | '*' :: r3 => isWordChar (r3.headD ' ')
        | _ => false)))

/-- Match of `\bunion\b.*\bselect\b`: a word-delimited `union`, then a
word-delimited `select` further right, with no line terminator in between. -/
def unionThenSelect (cs : List Char) : Bool :=
  (List.range cs.length).any fun i =>
    boundedAt cs i "union".data &&
    ((List.range (cs.length + 1)).any fun j =>
      decide (i + 5 ≤ j) && boundedAt cs j "select".data &&
        noLineTerm ((cs.drop (i + 5)).take (j - (i + 5))))

/-- Embedding of `SQLI_RE` from `src/unnamed/part_000`:
`/(\bunion\b.*\bselect\b)|(\bor\s+1\s*=\s*1\b)|(\binject\b)|(\bselect\s+\*\b)|(\bunion select\b)/i`. -/
def matchSqli (text : String) : Bool :=
  let cs := toLowerL text.data
  unionThenSelect cs ||
  ((List.range cs.length).any fun i => orTautAt cs i) ||
  boundedSomewhere cs "inject".data ||
  ((List.range cs.length).any fun i => selectStarAt cs i) ||
  boundedSomewhere cs "union select".data

/-- Embedding of `SUSPICIOUS_UA_RE`:
`/(curl|sqlmap|nikto|fuzzer|masscan|nmap|python-requests)/i`. -/
def matchSuspiciousUa (text : String) : Bool :=
  containsCI text "curl" || containsCI text "sqlmap" || containsCI text "nikto" ||
  containsCI text "fuzzer" || containsCI text "masscan" || containsCI text "nmap" ||
  containsCI text "python-requests"

end Full

namespace Simple

/-- Match of `(?:\d{1,3}\.){3}\d{1,3}` at the head of the suffix: the first
three groups are forced digit runs followed by dots, the greedy last group
takes up to three digits of its run. -/
def quadAt (cs : List Char) : Option (List Char) :=
  match digitsSplit cs with
  | (d1, '.' :: r1) =>
    if d1.isEmpty || decide (3 < d1.length) then none else
    match digitsSplit r1 with
    | (d2, '.' :: r2) =>
      if d2.isEmpty || decide (3 < d2.length) then none else
      match digitsSplit r2 with
      | (d3, '.' :: r3) =>
        if d3.isEmpty || decide (3 < d3.length) then none else
        match digitsSplit r3 with
        | (d4, _) =>
          if d4.isEmpty then none
          else some (d1 ++ '.' :: (d2 ++ '.' :: (d3 ++ '.' :: d4.take 3)))
      | _ => none
    | _ => none
  | _ => none

/-- Leftmost scan of the unbounded dotted-quad pattern. -/
def scanQuad : List Char → Option (List Char)
  | [] => none
  | c :: rest =>
    match quadAt (c :: rest) with
    | some q => some q
    | none => scanQuad rest

/-- Embedding of `extractIp` from `src/api/detect.js`: first match of
`/(?:\d{1,3}\.){3}\d{1,3}/`. -/
def extractIp (text : String) : Option String :=
  (scanQuad text.data).map fun q => String.mk q

/-- Embedding of `FAILED_LOGIN_RE` from `src/api/detect.js`:
`/failed login|authentication failed|invalid credentials|login failed/i`. -/
def matchFailedLogin (text : String) : Bool :=
  containsCI text "failed login" || containsCI text "authentication failed" ||
  containsCI text "invalid credentials" || containsCI text "login failed"

/-- Match of `\bOR\b\s+\b1\b=\b1\b` at position `i` of the lowered text (the
interior boundaries around `1` and `=` hold automatically, the mandatory
whitespace after `or` discharges its right boundary). -/
def orTautAt (cs : List Char) (i : Nat) : Bool :=
  boundaryLeft cs i &&
  (['o', 'r'].isPrefixOf (cs.drop i) &&
    (let r1 := (cs.drop i).drop 2
     let w1 := r1.takeWhile isJsSpace
     let r2 := r1.dropWhile isJsSpace
     !w1.isEmpty &&
       (match r2 with
        | '1' :: '=' :: '1' :: r3 => !(isWordChar (r3.headD ' '))
        | _ => false)))

/-- Embedding of `SQLI_RE` from `src/api/detect.js`:
`/(\%27)|(')|(\-\-)|(\%23)|(#)|(\%3D)|(\bOR\b\s+\b1\b=\b1\b)/i`. -/
def matchSqli (text : String) : Bool :=
  let cs := toLowerL text.data
  listContainsSub cs "%27".data ||
  listContainsSub cs [squote] ||
  listContainsSub cs "--".data ||
  listContainsSub cs "%23".data ||
  listContainsSub cs "#".data ||
  listContainsSub cs "%3d".data ||
  ((List.range cs.length).any fun i => orTautAt cs i)

/-- Embedding of `SUSPICIOUS_UA_RE` from `src/api/detect.js` (same token
alternation as the full variant). -/
def matchSuspiciousUa (text : String) : Bool :=
  containsCI text "curl" || containsCI text "sqlmap" || containsCI text "nikto" ||
  containsCI text "fuzzer" || containsCI text "masscan" || containsCI text "nmap" ||
  containsCI text "python-requests"

/-- Embedding of `detectRules` from `src/api/detect.js`: bare rule-name
strings pushed in source order. -/
def detectRules (text : String) : List String :=
  (if matchFailedLogin text then ["FAILED_LOGIN"] else []) ++
  (if matchSqli text then ["SQL_INJECTION_PATTERN"] else []) ++
  (if matchSuspiciousUa text then ["SUSPICIOUS_USER_AGENT"] else [])

end Simple

/-- A finding of the full variant: `{ rule, severity, desc }`. -/
structure Finding where
  rule : String
  severity : String
  desc : String

/-- Embedding of `detectRules` from `src/unnamed/part_000`: findings pushed
in source order with their fixed severity and description. -/
def Full.detectRules (text : String) : List Finding :=
  (if Full.matchFailedLogin text then
    [⟨"failed-login", "medium", "Failed login attempt"⟩] else []) ++
  (if Full.matchAdmin text then
    [⟨"admin-access", "high", "Admin user access attempt"⟩] else []) ++
  (if Full.matchSqli text then
    [⟨"sql-injection", "critical", "Possible SQL injection"⟩] else []) ++
  (if Full.matchSuspiciousUa text then
    [⟨"suspicious-user-agent", "medium", "Suspicious user agent / scanner"⟩] else [])

/-- A persisted incident row (the `extra` column carries free-form JSON). -/
structure Incident where
  incident_id : String
  created_at : String
  log_source : String
  findings : List String
  message_excerpt : String
  evidence_path : Option String
  extra : Json

/-- A row of the `counters` table. -/
structure CounterRow where
  counter_id : String
  ip : String
  window_start : Int
  count : Int
  last_seen : String

/-- The `counters` table, keyed by `counter_id`. -/
abbrev CounterTable := List (String × CounterRow)

/-- One call to an external collaborator, in invocation order. -/
inductive Effect where
  | blobUpload (path : String)
  | blobGetUrl (path : String)
  | counterSelect (key : String)
  | counterInsert (row : CounterRow)
  | counterUpdate (key : String) (count : Int)
  | incidentInsert (inc : Incident)
  | notify (title : String) (body : String)

namespace Full

/-- Environment configuration of `src/unnamed/part_000`: `SUPABASE_URL` and
`SUPABASE_SERVICE_ROLE` presence, `API_KEY` (possibly unset), and
`ALERT_WEBHOOK` (empty string when unset). -/
structure Config where
  supabaseConfigured : Bool
  apiKey : Option String
  alertWebhook : String

/-- Outcomes of the table-store calls made by one `updateCounter` invocation. -/
structure CounterBehavior where
  selectErr : Bool
  selectThrows : Bool
  insertErr : Bool
  updateErr : Bool

/-- Per-request resolution of everything the handler obtains from outside
pure computation: the two generated UUIDs, the clock, date normalization
(`normDate v` models `new Date(v).toISOString()` on a client-supplied
timestamp value; `none` models the `RangeError` the call throws when the
value does not parse as a date), and the outcome of each collaborator call. -/
structure Behavior where
  uuid1 : String
  uuid2 : String
  nowMs : Int
  nowIso : String
  normDate : Json → Option String
  uploadThrows : Bool
  uploadErr : Bool
  urlResult : Option String
  incidentInsertErr : Bool
  bfInsertErr : Bool
  insertErrMsg : String
  counter : CounterBehavior

/-- The parts of the inbound request the handler reads. -/
structure RequestEnv where
  method : String
  apiKeyHeader : Option String
  forwardedFor : Option String
  xSource : Option String
  remoteAddress : Option String
  body : Json

/-- The JSON responses of `src/unnamed/part_000`, by shape. -/
inductive Response where
  | methodNotAllowed
  | unauthorized
  | ok (findings : List String)
  | created (incident : Incident) (bruteForce : Bool)
  | internalError (details : String)

/-- JS falsiness of a possibly-unset environment string. -/
def envFalsy : Option String → Bool
  | none => true
  | some s => s == ""

/-- The guard `!API_KEY || req.headers["x-api-key"] !== API_KEY`. -/
def authFails (cfg : Config) (req : RequestEnv) : Bool :=
  envFalsy cfg.apiKey || req.apiKeyHeader != cfg.apiKey

/-- Keep an optional string only when truthy (JS `||` skips empty strings). -/
def truthyOpt : Option String → Option String
  | none => none
  | some s => if s == "" then none else some s

/-- First entry of a comma-separated header, `s.split(",")[0]`: the prefix
before the first comma. -/
def firstEntry (s : String) : String :=
  String.mk (s.data.takeWhile fun c => !(c == ','))

/-- The `realIp` fallback chain of `src/unnamed/part_000` line 189:
`ipFromMessage || x-forwarded-for first entry || x-source || socket address
|| "unknown"`. -/
def realIpOf (message : String) (req : RequestEnv) : String :=
  ((truthyOpt (extractIp message)).orElse fun _ =>
    ((truthyOpt (req.forwardedFor.map firstEntry)).orElse fun _ =>
      ((truthyOpt req.xSource).orElse fun _ =>
        truthyOpt req.remoteAddress))).getD "unknown"

/-- Embedding of `storeEvidence` from `src/unnamed/part_000`: config guard,
upload (an error or a thrown exception yields null), then `getPublicUrl`
(whose `publicURL` field may be absent, yielding null). -/
def storeEvidence (cfg : Config) (b : Behavior) (incidentId : String) :
    Option String × List Effect :=
  if !cfg.supabaseConfigured then (none, [])
  else
    let path := incidentId ++ ".txt"
    if b.uploadThrows then (none, [.blobUpload path])
    else if b.uploadErr then (none, [.blobUpload path])
    else (b.urlResult, [.blobUpload path, .blobGetUrl path])

/-- Embedding of line 104: `Math.floor((now - 5 * 60 * 1000) / 1000)`. -/
def windowStart (nowMs : Int) : Int :=
  Int.fdiv (nowMs - 5 * 60 * 1000) 1000

/-- The counter key of line 105: the template literal `ip-windowStart`. -/
def counterKey (ip : String) (nowMs : Int) : String :=
  ip ++ "-" ++ toString (windowStart nowMs)

/-- Embedding of `updateCounter` from `src/unnamed/part_000`: falsy-ip guard,
select by exact key (an error yields no row, a thrown exception is caught and
yields null), then insert-with-count-1 or update-to-count-plus-one; insert
and update errors are only logged, the in-memory count is returned anyway. -/
def updateCounter (cb : CounterBehavior) (nowMs : Int) (nowIso : String)
    (ip : Option String) (st : CounterTable) :
    Option Int × CounterTable × List Effect :=
  match ip with
  | none => (none, st, [])
  | some ip =>
    let key := counterKey ip nowMs
    if cb.selectThrows then (none, st, [.counterSelect key])
    else
      let existing := if cb.selectErr then none else st.lookup key
      match existing with
      | none =>
        let row : CounterRow :=
          { counter_id := key, ip := ip, window_start := windowStart nowMs,
            count := 1, last_seen := nowIso }
        let st2 := if cb.insertErr then st else st ++ [(key, row)]
        (some 1, st2, [.counterSelect key, .counterInsert row])
      | some row =>
        let newCount := (if row.count == 0 then 0 else row.count) + 1
        let st2 :=
          if cb.updateErr then st
          else st.map fun kr =>
            if kr.1 == key then
              (kr.1, { kr.2 with count := newCount, last_seen := nowIso })
            else kr
        (some newCount, st2, [.counterSelect key, .counterUpdate key newCount])

/-- The `created_at` of the main incident:
`new Date(payload?.timestamp || new Date().toISOString()).toISOString()`.
A truthy `timestamp` field goes through `new Date(...).toISOString()`, which
throws a `RangeError` on an unparseable value (`none` here); with the field
absent or falsy the argument is a fresh `new Date().toISOString()`, whose
round-trip through the constructor always succeeds and yields it back. -/
def createdAt (b : Behavior) (payload : Json) : Option String :=
  match jGet payload "timestamp" with
  | some v => if jTruthy v then b.normDate v else some b.nowIso
  | none => some b.nowIso

/-- The `meta` value: `payload?.meta || null`. -/
def metaVal (payload : Json) : Json :=
  match jGet payload "meta" with
  | some v => if jTruthy v then v else Json.null
  | none => Json.null

/-- JSON image of the findings array stored in the `extra` column. -/
def findingsJson (fs : List Finding) : Json :=
  Json.arr (fs.map fun f =>
    Json.obj [("rule", .str f.rule), ("severity", .str f.severity), ("desc", .str f.desc)])

/-- The incident object built on lines 199 to 207 of `src/unnamed/part_000`,
for the `created_at` value the date normalization produced (the handler only
builds the object when that normalization did not throw). -/
def mainIncidentOf (cfg : Config) (b : Behavior) (req : RequestEnv)
    (created : String) : Incident :=
  let message := messageText req.body
  { incident_id := "inc-" ++ b.uuid1,
    created_at := created,
    log_source := realIpOf message req,
    findings := (detectRules message).map Finding.rule,
    message_excerpt := message.take 800,
    evidence_path := (storeEvidence cfg b ("inc-" ++ b.uuid1)).1,
    extra := Json.obj [("findings", findingsJson (detectRules message)),
                       ("meta", metaVal req.body)] }

/-- The synthetic brute-force incident of lines 218 to 225. -/
def bfIncidentOf (b : Behavior) (realIp : String) (count : Int) : Incident :=
  { incident_id := "bf-" ++ b.uuid2,
    created_at := b.nowIso,
    log_source := realIp,
    findings := ["brute-force"],
    message_excerpt :=
      "Multiple failed login attempts detected from IP " ++ realIp ++
      " (count=" ++ toString count ++ ")",
    evidence_path := none,
    extra := Json.obj [("attempts", .num count)] }

/-- Embedding of `sendAlertWebhook`: an outbound call happens only when
`ALERT_WEBHOOK` is configured; delivery failures are swallowed. -/
def notifyEffs (cfg : Config) (title body : String) : List Effect :=
  if cfg.alertWebhook == "" then [] else [.notify title body]

/-- Lines 233 to 240: the critical-severity alert, then the 201 response. -/
def finishCritical (cfg : Config) (b : Behavior) (req : RequestEnv) (created : String)
    (st : CounterTable) (effs : List Effect) (bfFlag : Bool) :
    Response × List Effect × CounterTable :=
  let message := messageText req.body
  let findings := detectRules message
  let effs2 := effs ++
    (match findings.find? (fun f => f.severity == "critical") with
     | some f => notifyEffs cfg "Critical finding detected"
         (f.desc ++ "\nIP: " ++ realIpOf message req ++ "\nExcerpt: " ++ message.take 800)
     | none => [])
  (.created (mainIncidentOf cfg b req created) bfFlag, effs2, st)

/-- Lines 187 to 240: the findings-nonempty path of the handler: archive
evidence, then build the incident object — whose `created_at` evaluates
`new Date(timestamp).toISOString()` and so throws a `RangeError` on an
unparseable client timestamp, caught as a 500 with the archive effects
already performed — insert it (an insert error throws, caught as a 500),
then the brute-force branch, the critical alert, and the 201 response. -/
def recordIncident (cfg : Config) (b : Behavior) (req : RequestEnv)
    (st : CounterTable) : Response × List Effect × CounterTable :=
  let message := messageText req.body
  let evEffs := (storeEvidence cfg b ("inc-" ++ b.uuid1)).2
  match createdAt b req.body with
  | none => (.internalError "RangeError: Invalid time value", evEffs, st)
  | some created =>
    let incident := mainIncidentOf cfg b req created
    let effs1 := evEffs ++ [.incidentInsert incident]
    if b.incidentInsertErr then
      (.internalError ("Error: " ++ b.insertErrMsg), effs1, st)
    else if matchFailedLogin message then
      let cres := updateCounter b.counter b.nowMs b.nowIso (some (realIpOf message req)) st
      match cres.1 with
      | some n =>
        if 3 ≤ n then
          let bfInc := bfIncidentOf b (realIpOf message req) n
          let effs2 := effs1 ++ cres.2.2 ++ [.incidentInsert bfInc]
          if b.bfInsertErr then
            (.internalError ("Error: " ++ b.insertErrMsg), effs2, cres.2.1)
          else
            finishCritical cfg b req created cres.2.1
              (effs2 ++ notifyEffs cfg "Brute-force detected"
                ("IP " ++ realIpOf message req ++ " had " ++ toString n ++
                 " failed logins in 5m")) true
        else finishCritical cfg b req created cres.2.1 (effs1 ++ cres.2.2) false
      | none => finishCritical cfg b req created cres.2.1 (effs1 ++ cres.2.2) false
    else finishCritical cfg b req created st effs1 false

/-- Lines 173 to 244: the body of the `try` block. -/
def tryBody (cfg : Config) (b : Behavior) (req : RequestEnv) (st : CounterTable) :
    Response × List Effect × CounterTable :=
  let findings := detectRules (messageText req.body)
  if findings.isEmpty then (.ok [], [], st)
  else recordIncident cfg b req st

/-- Embedding of the default-export `handler` of `src/unnamed/part_000`:
method gate, API-key gate, then the try body. -/
def handler (cfg : Config) (b : Behavior) (req : RequestEnv) (st : CounterTable) :
    Response × List Effect × CounterTable :=
  if req.method != "POST" then (.methodNotAllowed, [], st)
  else if authFails cfg req then (.unauthorized, [], st)
  else tryBody cfg b req st

end Full

namespace Simple

/-- Environment configuration of `src/api/detect.js`: the alert email list
(empty when unset). -/
structure Config where
  alertEmails : List String

/-- Per-request resolution of the collaborator calls of `src/api/detect.js`. -/
structure Behavior where
  uuid1 : String
  nowMs : Int
  nowIso : String
  uploadThrows : Bool
  uploadErr : Bool
  urlErr : Bool
  signedUrl : Option String
  insertErr : Bool

/-- The parts of the inbound request this handler reads. -/
structure RequestEnv where
  method : String
  xSource : Option String
  body : Json

/-- The JSON responses of `src/api/detect.js`, by shape. -/
inductive Response where
  | methodNotAllowed
  | ok (findings : List String)
  | created (incident : Incident)
  | internalError (details : String)

/-- Embedding of `storeEvidence` from `src/api/detect.js`: upload under
`incidentId/now.log` (an error or exception yields null), then
`createSignedUrl` (an error yields null, otherwise `data?.signedUrl || null`). -/
def storeEvidence (b : Behavior) (incidentId : String) :
    Option String × List Effect :=
  let path := incidentId ++ "/" ++ toString b.nowMs ++ ".log"
  if b.uploadThrows then (none, [.blobUpload path])
  else if b.uploadErr then (none, [.blobUpload path])
  else if b.urlErr then (none, [.blobUpload path, .blobGetUrl path])
  else (b.signedUrl, [.blobUpload path, .blobGetUrl path])

/-- The incident object of lines 114 to 122 of `src/api/detect.js`:
`log_source` is `req.headers["x-source"] || "vercel"` and `extra` is
`payload?.meta || null`. -/
def mainIncidentOf (b : Behavior) (req : RequestEnv) : Incident :=
  let message := messageText req.body
  { incident_id := "inc-" ++ b.uuid1,
    created_at := b.nowIso,
    log_source :=
      (match req.xSource with
       | some s => if s == "" then "vercel" else s
       | none => "vercel"),
    findings := detectRules message,
    message_excerpt := message.take 800,
    evidence_path := (storeEvidence b ("inc-" ++ b.uuid1)).1,
    extra :=
      (match jGet req.body "meta" with
       | some v => if jTruthy v then v else Json.null
       | none => Json.null) }

/-- Embedding of the default-export `handler` of `src/api/detect.js`: the
whole body sits in one `try`.  `detectRules` coerces its argument, but
`extractIp` calls `.match` on the raw message value before the empty-findings
check, so a truthy non-string `message` field raises a `TypeError` that the
`catch` turns into a 500.  `saveIncident` swallows insert errors, and
`sendAlert` only logs, so the insert error flag never changes the response. -/
def handler (_cfg : Config) (b : Behavior) (req : RequestEnv) :
    Response × List Effect :=
  if req.method != "POST" then (.methodNotAllowed, [])
  else
    let mv := messageVal req.body
    let findings := detectRules (jsToString mv)
    match mv with
    | .str _ =>
      if findings.isEmpty then (.ok [], [])
      else
        let inc := mainIncidentOf b req
        (.created inc,
         (storeEvidence b ("inc-" ++ b.uuid1)).2 ++ [.incidentInsert inc])
    | _ => (.internalError "TypeError: text.match is not a function", [])

end Simple

/-- HTTP status of a full-variant response. -/
def Full.Response.statusCode : Full.Response → Nat
  | .methodNotAllowed => 405
  | .unauthorized => 401
  | .ok _ => 200
  | .created _ _ => 201
  | .internalError _ => 500

/-- The `bruteForce` flag of a 201 response (false elsewhere). -/
def Full.Response.bruteForceFlag : Full.Response → Bool
  | .created _ b => b
  | _ => false

/-- HTTP status of a simple-variant response. -/
def Simple.Response.statusCode : Simple.Response → Nat
  | .methodNotAllowed => 405
  | .ok _ => 200
  | .created _ => 201
  | .internalError _ => 500

/-- Number of incident inserts whose findings are exactly `["brute-force"]`. -/
def bfInsertCount (effs : List Effect) : Nat :=
  effs.countP fun e =>
    match e with
    | .incidentInsert inc => inc.findings == ["brute-force"]
    | _ => false

/-- Number of incident-insert calls in a trace. -/
def incidentInsertCount (effs : List Effect) : Nat :=
  effs.countP fun e =>
    match e with
    | .incidentInsert _ => true
    | _ => false

/-- Number of notification calls in a trace. -/
def notifyCount (effs : List Effect) : Nat :=
  effs.countP fun e =>
    match e with
    | .notify _ _ => true
    | _ => false

/-- The `log_source` of each inserted incident, in order. -/
def insertedLogSources (effs : List Effect) : List String :=
  effs.filterMap fun e =>
    match e with
    | .incidentInsert inc => some inc.log_source
    | _ => none

/-- A fixed reference clock for the concrete runs: a realistic epoch
millisecond count. -/
def egT0 : Int := 1700000000000

/-- Full-variant configuration for the concrete runs: storage configured,
API key `secret`, webhook configured. -/
def egCfg : Full.Config :=
  { supabaseConfigured := true, apiKey := some "secret", alertWebhook := "https://hook.example" }

/-- A failed-login request from source 9.9.9.9 carrying the right API key. -/
def egReq : Full.RequestEnv :=
  { method := "POST",
    apiKeyHeader := some "secret",
    forwardedFor := none,
    xSource := none,
    remoteAddress := none,
    body := Json.obj [("message", Json.str "failed login from 9.9.9.9")] }

/-- Full-variant behavior with all collaborator calls succeeding, at time
`egT0 + offsetMs` and with UUIDs derived from the tag. -/
def egB (tag : String) (offsetMs : Int) : Full.Behavior :=
  { uuid1 := "u" ++ tag,
    uuid2 := "v" ++ tag,
    nowMs := egT0 + offsetMs,
    nowIso := "2023-11-14T22:13:20.000Z",
    normDate := fun v => some (jsToString v),
    uploadThrows := false,
    uploadErr := false,
    urlResult := some "https://blob.example/ev",
    incidentInsertErr := false,
    bfInsertErr := false,
    insertErrMsg := "",
    counter := { selectErr := false, selectThrows := false, insertErr := false, updateErr := false } }

/-- Counter behavior with every table-store call succeeding. -/
def egCb : Full.CounterBehavior :=
  { selectErr := false, selectThrows := false, insertErr := false, updateErr := false }

/-- C1: the claim says sequential increments for one source in one fixed
window return 1, 2, 3, with the counter keyed by
`windowStart = floor(now / windowWidth)`.  The code instead keys by
`floor((now - 300000) / 1000)`, a per-second value: two calls one second
apart lie in the same five-minute window (`floor(now / 300000)` agrees) yet
get different keys, so the second call returns 1, not 2.  With the clock
frozen (same key) the counter does return 1 then 2 then 3. -/
theorem updateCounter_window_key_bug :
    (Full.updateCounter egCb egT0 "iso" (some "5.6.7.8") []).1 = some 1 ∧
    (Full.updateCounter egCb (egT0 + 1000) "iso" (some "5.6.7.8")
      (Full.updateCounter egCb egT0 "iso" (some "5.6.7.8") []).2.1).1 = some 1 ∧
    Int.fdiv egT0 (5 * 60 * 1000) = Int.fdiv (egT0 + 1000) (5 * 60 * 1000) ∧
    Full.windowStart egT0 ≠ Full.windowStart (egT0 + 1000) ∧
    (Full.updateCounter egCb egT0 "iso" (some "5.6.7.8")
      (Full.updateCounter egCb egT0 "iso" (some "5.6.7.8") []).2.1).1 = some 2 ∧
    (Full.updateCounter egCb egT0 "iso" (some "5.6.7.8")
      (Full.updateCounter egCb egT0 "iso" (some "5.6.7.8")
        (Full.updateCounter egCb egT0 "iso" (some "5.6.7.8") []).2.1).2.1).1 = some 3 := by
  decide

/-- C2: the claim says the 3rd sequential failed-login event from one source
within one window persists exactly one synthetic brute-force incident and
notifies.  Three authorized failed-login posts from 9.9.9.9 at one-second
spacing all fall in the same five-minute window, yet no run persists a
brute-force incident and the third response has `bruteForce = false`,
because the counter key changes every second.  With all three events in the
same second the third run does persist exactly one brute-force incident
(two incident inserts in total: the ordinary one and the synthetic one) and
notifies, while the first two runs persist none, showing the threshold logic
itself works and only the window key is at fault. -/
theorem handler_bruteforce_window_bug :
    (Full.matchFailedLogin (messageText egReq.body) = true) ∧
    Int.fdiv egT0 (5 * 60 * 1000) = Int.fdiv (egT0 + 2000) (5 * 60 * 1000) ∧
    (let r1 := Full.handler egCfg (egB "a" 0) egReq []
     let r2 := Full.handler egCfg (egB "b" 1000) egReq r1.2.2
     let r3 := Full.handler egCfg (egB "c" 2000) egReq r2.2.2
     bfInsertCount r1.2.1 = 0 ∧ bfInsertCount r2.2.1 = 0 ∧ bfInsertCount r3.2.1 = 0 ∧
     r3.1.bruteForceFlag = false ∧ r3.1.statusCode = 201) ∧
    (let g1 := Full.handler egCfg (egB "a" 0) egReq []
     let g2 := Full.handler egCfg (egB "b" 0) egReq g1.2.2
     let g3 := Full.handler egCfg (egB "c" 0) egReq g2.2.2
     bfInsertCount g1.2.1 = 0 ∧ bfInsertCount g2.2.1 = 0 ∧ bfInsertCount g3.2.1 = 1 ∧
     incidentInsertCount g3.2.1 = 2 ∧
     g3.1.bruteForceFlag = true ∧ notifyCount g3.2.1 = 1) := by
  decide

/-- C3: a POST whose `x-api-key` header is absent or differs from the
configured key is answered 401 with an empty effect trace: no blob-store
write, no table-store call, no notification, and the counter table is
untouched. -/
theorem handler_auth_rejects_without_effects :
    ∀ (cfg : Full.Config) (b : Full.Behavior) (req : Full.RequestEnv)
      (st : CounterTable) (k : String),
      req.method = "POST" → cfg.apiKey = some k → k ≠ "" →
      req.apiKeyHeader ≠ some k →
      Full.handler cfg b req st = (.unauthorized, [], st) := by
  intro cfg b req st k hm hk hke hh
  simp [Full.handler, Full.authFails, Full.envFalsy, hm, hk, hke, hh]

/-- Witness for C3: a malicious failed-login POST carrying the wrong key is
rejected with no effects. -/
theorem handler_auth_rejects_without_effects_witness :
    Full.handler egCfg (egB "a" 0)
      { egReq with apiKeyHeader := some "wrong" } [] = (.unauthorized, [], []) :=
  handler_auth_rejects_without_effects egCfg (egB "a" 0)
    { egReq with apiKeyHeader := some "wrong" } [] "secret"
    rfl rfl (by decide) (by decide)

/-- Simple-variant configuration for the concrete runs. -/
def egSCfg : Simple.Config := { alertEmails := [] }

/-- Simple-variant behavior with all collaborator calls succeeding. -/
def egSB : Simple.Behavior :=
  { uuid1 := "w", nowMs := egT0, nowIso := "2023-11-14T22:13:20.000Z",
    uploadThrows := false, uploadErr := false, urlErr := false,
    signedUrl := some "https://signed.example/ev", insertErr := false }

/-- The failed-login request as seen by the simple variant. -/
def egSReq : Simple.RequestEnv :=
  { method := "POST", xSource := none,
    body := Json.obj [("message", Json.str "failed login from 9.9.9.9")] }

/-- An innocuous request (no rule matches its message) for the full variant. -/
def c5Req : Full.RequestEnv :=
  { egReq with body := Json.obj [("message", Json.str "hello world")] }

/-- The same innocuous request for the simple variant. -/
def c5SReq : Simple.RequestEnv :=
  { egSReq with body := Json.obj [("message", Json.str "hello world")] }

/-- C5: a text no rule pattern matches makes `detectRules` return the empty
list in both variants, and an authorized POST carrying it is answered 200
with empty findings and an empty effect trace (no incident row, no evidence
blob, no counter row). -/
theorem evaluate_empty_no_persistence :
    ∀ (text : String),
      Full.matchFailedLogin text = false → Full.matchAdmin text = false →
      Full.matchSqli text = false → Full.matchSuspiciousUa text = false →
      Simple.matchFailedLogin text = false → Simple.matchSqli text = false →
      Simple.matchSuspiciousUa text = false →
      Full.detectRules text = [] ∧
      Simple.detectRules text = [] ∧
      (∀ cfg b req st, req.method = "POST" → Full.authFails cfg req = false →
        messageText req.body = text →
        Full.handler cfg b req st = (.ok [], [], st)) ∧
      (∀ cfg b req, req.method = "POST" → messageVal req.body = Json.str text →
        Simple.handler cfg b req = (.ok [], [])) := by
  intro text h1 h2 h3 h4 h5 h6 h7
  have hfull : Full.detectRules text = [] := by
    simp [Full.detectRules, h1, h2, h3, h4]
  have hsimple : Simple.detectRules text = [] := by
    simp [Simple.detectRules, h5, h6, h7]
  refine ⟨hfull, hsimple, ?_, ?_⟩
  · intro cfg b req st hm ha hmsg
    simp [Full.handler, hm, ha, Full.tryBody, hmsg, hfull]
  · intro cfg b req hm hmv
    simp [Simple.handler, hm, hmv, jsToString, hsimple]

/-- Witness for C5: the text `hello world` fires no rule, and both handlers
answer it 200 with no effects. -/
theorem evaluate_empty_no_persistence_witness :
    Full.detectRules "hello world" = [] ∧
    Simple.detectRules "hello world" = [] ∧
    Full.handler egCfg (egB "a" 0) c5Req [] = (.ok [], [], []) ∧
    Simple.handler egSCfg egSB c5SReq = (.ok [], []) := by
  have h := evaluate_empty_no_persistence "hello world"
    (by decide) (by decide) (by decide) (by decide) (by decide) (by decide) (by decide)
  exact ⟨h.1, h.2.1,
    h.2.2.1 egCfg (egB "a" 0) c5Req [] rfl (by decide) (by decide),
    h.2.2.2 egSCfg egSB c5SReq rfl rfl⟩

/-- Request whose body carries a present-but-empty `message` field. -/
def c10Req : Full.RequestEnv :=
  { egReq with body := Json.obj [("message", Json.str "")] }

/-- C10: when the body is an object whose `message` field is present but
falsy (the empty string), the `||` chain discards it: the message becomes
the JSON serialization of the whole body and the handler evaluates the rules
on that serialization. -/
theorem falsy_message_field_uses_serialization :
    ∀ (fields : List (String × Json)),
      fields.lookup "message" = some (Json.str "") →
      messageVal (Json.obj fields) = Json.str (Json.stringify (Json.obj fields)) ∧
      messageText (Json.obj fields) = Json.stringify (Json.obj fields) ∧
      (∀ cfg b req st, req.body = Json.obj fields →
        Full.tryBody cfg b req st =
          (if (Full.detectRules (Json.stringify (Json.obj fields))).isEmpty
           then (.ok [], [], st) else Full.recordIncident cfg b req st)) := by
  intro fields hl
  have hmv : messageVal (Json.obj fields) = Json.str (Json.stringify (Json.obj fields)) := by
    simp [messageVal, jGet, hl, jTruthy, messageVal.messageFallback]
  have hmt : messageText (Json.obj fields) = Json.stringify (Json.obj fields) := by
    rw [messageText, hmv, jsToString]
  refine ⟨hmv, hmt, ?_⟩
  intro cfg b req st hb
  rw [Full.tryBody, hb, hmt]

/-- Witness for C10: with body `{"message":""}` the evaluated text is the
serialization of the body, which does fire no rule, so the response is a 200
with no effects. -/
theorem falsy_message_field_uses_serialization_witness :
    messageText (Json.obj [("message", Json.str "")]) =
      Json.stringify (Json.obj [("message", Json.str "")]) ∧
    Full.tryBody egCfg (egB "a" 0) c10Req [] =
      (if (Full.detectRules (Json.stringify (Json.obj [("message", Json.str "")]))).isEmpty
       then (.ok [], [], ([] : CounterTable)) else Full.recordIncident egCfg (egB "a" 0) c10Req []) := by
  have h := falsy_message_field_uses_serialization [("message", Json.str "")] rfl
  exact ⟨h.2.1, h.2.2 egCfg (egB "a" 0) c10Req [] rfl⟩

/-- A successful quad parse never produces the empty character list. -/
theorem quadAt_ne_nil : ∀ (cs : List Char) (q : List Char),
    Full.quadAt cs = some q → q ≠ [] := by
  intro cs q h
  unfold Full.quadAt at h
  repeat' split at h
  all_goals simp_all
  all_goals
    intro hq
    subst hq
    simp at h

/-- A successful scan never produces the empty character list. -/
theorem scanQuad_ne_nil : ∀ (cs : List Char) (pw : Bool) (q : List Char),
    Full.scanQuad pw cs = some q → q ≠ [] := by
  intro cs
  induction cs with
  | nil => intro pw q h; simp [Full.scanQuad] at h
  | cons c rest ih =>
    intro pw q h
    rw [Full.scanQuad] at h
    rcases hq : (if pw then none else Full.quadAt (c :: rest)) with _ | q2
    · rw [hq] at h
      exact ih _ _ h
    · rw [hq] at h
      simp at h
      subst h
      rcases pw with _ | _
      · simp at hq
        exact quadAt_ne_nil _ _ hq
      · simp at hq

/-- An extracted source address is never the empty string (so the JS `||`
chain always keeps it). -/
theorem extractIp_ne_empty : ∀ (t : String) (ip : String),
    Full.extractIp t = some ip → ip ≠ "" := by
  intro t ip h
  rw [Full.extractIp] at h
  split at h
  · simp at h
  · rcases hs : Full.scanQuad false t.data with _ | q
    · rw [hs] at h; simp at h
    · rw [hs] at h
      simp at h
      intro hemp
      rw [hemp] at h
      have hq : q = [] := by
        have := congrArg String.data h
        simpa using this
      exact scanQuad_ne_nil _ _ _ hs hq

/-- Counterexample for C4: the simple variant's handler persists an incident
for a message that contains an extractable IP, yet records `log_source` as
the literal `vercel` (its `x-source` header being absent), not the IP the
claim's fallback chain requires. -/
theorem log_source_chain_cex :
    Simple.extractIp (messageText egSReq.body) = some "9.9.9.9" ∧
    Simple.detectRules (messageText egSReq.body) ≠ [] ∧
    insertedLogSources (Simple.handler egSCfg egSB egSReq).2 = ["vercel"] ∧
    (Simple.handler egSCfg egSB egSReq).1.statusCode = 201 ∧
    ("vercel" : String) ≠ "9.9.9.9" := by
  decide

/-- C4 as amended: in the full variant `log_source` follows the chain — IP
extracted from the message, else the first comma-separated entry of the
forwarded-for header, else the source header, else the raw connection
address, else the literal `unknown`, empty strings being skipped — and the
persisted incident carries exactly that value; in the simple variant
`log_source` is the source header when present and non-empty, else the
literal `vercel`. -/
theorem log_source_fallback_by_variant :
    (∀ (msg : String) (req : Full.RequestEnv),
      (∀ ip, Full.extractIp msg = some ip → Full.realIpOf msg req = ip) ∧
      (Full.extractIp msg = none → ∀ s, req.forwardedFor = some s →
        Full.firstEntry s ≠ "" → Full.realIpOf msg req = Full.firstEntry s) ∧
      (Full.extractIp msg = none →
        Full.truthyOpt (req.forwardedFor.map Full.firstEntry) = none →
        ∀ u, req.xSource = some u → u ≠ "" → Full.realIpOf msg req = u) ∧
      (Full.extractIp msg = none →
        Full.truthyOpt (req.forwardedFor.map Full.firstEntry) = none →
        Full.truthyOpt req.xSource = none →
        ∀ r, req.remoteAddress = some r → r ≠ "" → Full.realIpOf msg req = r) ∧
      (Full.extractIp msg = none →
        Full.truthyOpt (req.forwardedFor.map Full.firstEntry) = none →
        Full.truthyOpt req.xSource = none →
        Full.truthyOpt req.remoteAddress = none →
        Full.realIpOf msg req = "unknown") ∧
      (∀ cfg b created, (Full.mainIncidentOf cfg b req created).log_source =
        Full.realIpOf (messageText req.body) req)) ∧
    (∀ (b : Simple.Behavior) (req : Simple.RequestEnv),
      (Simple.mainIncidentOf b req).log_source =
        (match req.xSource with
         | some s => if s = "" then "vercel" else s
         | none => "vercel")) := by
  constructor
  · intro msg req
    refine ⟨?_, ?_, ?_, ?_, ?_, ?_⟩
    · intro ip hip
      have hne := extractIp_ne_empty _ _ hip
      simp [Full.realIpOf, hip, Full.truthyOpt, hne]
    · intro hnone s hs hne
      simp [Full.realIpOf, hnone, hs, Full.truthyOpt, hne]
    · intro hnone hfwd u hu hne
      simp [Full.realIpOf, hnone, hu, Full.truthyOpt, hne] at *
      simp [hfwd]
    · intro hnone hfwd hx r hr hne
      simp [Full.realIpOf, hnone, hr, Full.truthyOpt, hne] at *
      simp [hfwd, hx]
    · intro hnone hfwd hx hr
      simp [Full.realIpOf, hnone, Full.truthyOpt] at *
      simp [hfwd, hx, hr]
    · intro cfg b created
      rfl
  · intro b req
    rcases hx : req.xSource with _ | s
    · simp [Simple.mainIncidentOf, hx]
    · by_cases h : s = "" <;> simp [Simple.mainIncidentOf, hx, h]

/-- Requests exercising each stage of the fallback chain. -/
def fwdReq : Full.RequestEnv :=
  { egReq with body := Json.obj [("message", Json.str "no ip here")],
               forwardedFor := some "8.8.8.8, 7.7.7.7" }

/-- Request with an empty forwarded-for entry and a source header. -/
def xsrcReq : Full.RequestEnv :=
  { egReq with body := Json.obj [("message", Json.str "no ip here")],
               forwardedFor := some "", xSource := some "srctag" }

/-- Request falling through to the raw connection address. -/
def remReq : Full.RequestEnv :=
  { egReq with body := Json.obj [("message", Json.str "no ip here")],
               forwardedFor := none, xSource := some "",
               remoteAddress := some "10.0.0.1" }

/-- Request with no source information at all. -/
def bareReq : Full.RequestEnv :=
  { egReq with body := Json.obj [("message", Json.str "no ip here")],
               forwardedFor := none, xSource := none, remoteAddress := none }

/-- Witness for the amended C4: each stage of the chain observed at a
concrete request, plus the simple variant's header-or-vercel rule. -/
theorem log_source_fallback_by_variant_witness :
    Full.realIpOf "failed login from 9.9.9.9" egReq = "9.9.9.9" ∧
    Full.realIpOf "no ip here" fwdReq = "8.8.8.8" ∧
    Full.realIpOf "no ip here" xsrcReq = "srctag" ∧
    Full.realIpOf "no ip here" remReq = "10.0.0.1" ∧
    Full.realIpOf "no ip here" bareReq = "unknown" ∧
    (Full.mainIncidentOf egCfg (egB "a" 0) egReq "2023-11-14T22:13:20.000Z").log_source =
      Full.realIpOf (messageText egReq.body) egReq ∧
    (Simple.mainIncidentOf egSB egSReq).log_source = "vercel" := by
  have h := log_source_fallback_by_variant
  refine ⟨(h.1 _ egReq).1 _ (by decide),
    ((h.1 _ fwdReq).2.1 (by decide) _ rfl (by decide)).trans (by decide),
    (h.1 _ xsrcReq).2.2.1 (by decide) (by decide) _ rfl (by decide),
    (h.1 _ remReq).2.2.2.1 (by decide) (by decide) (by decide) _ rfl (by decide),
    (h.1 _ bareReq).2.2.2.2.1 (by decide) (by decide) (by decide) (by decide),
    (h.1 "" egReq).2.2.2.2.2 egCfg (egB "a" 0) "2023-11-14T22:13:20.000Z",
    h.2 egSB egSReq⟩

/-- Count of brute-force inserts distributes over trace concatenation. -/
theorem bfInsertCount_append (xs ys : List Effect) :
    bfInsertCount (xs ++ ys) = bfInsertCount xs + bfInsertCount ys :=
  List.countP_append _ _ _

/-- The evidence archiver performs no incident inserts. -/
theorem bfInsertCount_storeEvidence (cfg : Full.Config) (b : Full.Behavior) (id : String) :
    bfInsertCount (Full.storeEvidence cfg b id).2 = 0 := by
  rw [Full.storeEvidence]
  split
  · rfl
  · split
    · rfl
    · split <;> rfl

/-- The notifier performs no incident inserts. -/
theorem bfInsertCount_notifyEffs (cfg : Full.Config) (t bo : String) :
    bfInsertCount (Full.notifyEffs cfg t bo) = 0 := by
  rw [Full.notifyEffs]; split <;> rfl

/-- The attempt counter performs no incident inserts. -/
theorem bfInsertCount_counter (cb : Full.CounterBehavior) (nowMs : Int) (iso : String)
    (ip : Option String) (st : CounterTable) :
    bfInsertCount (Full.updateCounter cb nowMs iso ip st).2.2 = 0 := by
  rcases ip with _ | s
  · rfl
  · rw [Full.updateCounter.eq_def]
    dsimp only
    split
    · rfl
    · rcases hres : (if cb.selectErr = true then none
        else List.lookup (Full.counterKey s nowMs) st) with _ | row <;>
        simp only [hres] <;> rfl

/-- When the failed-login rule fired, the ordinary incident's findings begin
with `failed-login`, so its insert is not a brute-force insert. -/
theorem mainIncident_not_bf (cfg : Full.Config) (b : Full.Behavior) (req : Full.RequestEnv)
    (created : String)
    (h : Full.matchFailedLogin (messageText req.body) = true) :
    bfInsertCount [Effect.incidentInsert (Full.mainIncidentOf cfg b req created)] = 0 := by
  simp [bfInsertCount, List.countP, List.countP.go, Full.mainIncidentOf, Full.detectRules, h]

/-- The closing step responds 201 with the main incident and adds no
incident inserts (at most a notification). -/
theorem finishCritical_parts (cfg : Full.Config) (b : Full.Behavior) (req : Full.RequestEnv)
    (created : String) (st : CounterTable) (effs : List Effect) (flag : Bool) :
    (Full.finishCritical cfg b req created st effs flag).1 =
      .created (Full.mainIncidentOf cfg b req created) flag ∧
    bfInsertCount (Full.finishCritical cfg b req created st effs flag).2.1 =
      bfInsertCount effs := by
  rw [Full.finishCritical]
  constructor
  · rfl
  · simp only [bfInsertCount_append]
    split
    · rw [bfInsertCount_notifyEffs]
      omega
    · rfl

/-- C9: `updateCounter` returns the in-memory count even when the insert or
update reports an error (1 on the create path, `existing.count + 1` on the
update path) while the stored table stays unchanged, so the returned count
can exceed what is stored; with no source address, or when the lookup
throws, it returns null and the handler then answers 201 with
`bruteForce = false` and persists no brute-force incident. -/
theorem updateCounter_inmemory_count_and_null :
    (∀ (cb : Full.CounterBehavior) (nowMs : Int) (iso : String) (st : CounterTable) (s : String),
      cb.selectThrows = false → cb.selectErr = false →
      st.lookup (Full.counterKey s nowMs) = none →
      (Full.updateCounter cb nowMs iso (some s) st).1 = some 1 ∧
      (cb.insertErr = true → (Full.updateCounter cb nowMs iso (some s) st).2.1 = st)) ∧
    (∀ (cb : Full.CounterBehavior) (nowMs : Int) (iso : String) (st : CounterTable)
        (s : String) (row : CounterRow),
      cb.selectThrows = false → cb.selectErr = false →
      st.lookup (Full.counterKey s nowMs) = some row → 0 < row.count →
      (Full.updateCounter cb nowMs iso (some s) st).1 = some (row.count + 1) ∧
      (cb.updateErr = true → (Full.updateCounter cb nowMs iso (some s) st).2.1 = st)) ∧
    (∀ (cb : Full.CounterBehavior) (nowMs : Int) (iso : String) (st : CounterTable),
      Full.updateCounter cb nowMs iso none st = (none, st, [])) ∧
    (∀ (cb : Full.CounterBehavior) (nowMs : Int) (iso : String) (st : CounterTable) (s : String),
      cb.selectThrows = true →
      (Full.updateCounter cb nowMs iso (some s) st).1 = none ∧
      (Full.updateCounter cb nowMs iso (some s) st).2.1 = st) ∧
    (∀ (cfg : Full.Config) (b : Full.Behavior) (req : Full.RequestEnv) (st : CounterTable)
        (created : String),
      req.method = "POST" → Full.authFails cfg req = false →
      Full.matchFailedLogin (messageText req.body) = true →
      Full.createdAt b req.body = some created →
      b.counter.selectThrows = true → b.incidentInsertErr = false →
      (Full.handler cfg b req st).1.statusCode = 201 ∧
      (Full.handler cfg b req st).1.bruteForceFlag = false ∧
      bfInsertCount (Full.handler cfg b req st).2.1 = 0) := by
  refine ⟨?_, ?_, ?_, ?_, ?_⟩
  · intro cb nowMs iso st s h1 h2 h3
    constructor
    · simp [Full.updateCounter, h1, h2, h3]
    · intro h4
      simp [Full.updateCounter, h1, h2, h3, h4]
  · intro cb nowMs iso st s row h1 h2 h3 h4
    have hz : (row.count == 0) = false := beq_eq_false_iff_ne.mpr (by omega)
    constructor
    · simp [Full.updateCounter, h1, h2, h3, hz]
    · intro h5
      simp [Full.updateCounter, h1, h2, h3, h5]
  · intro cb nowMs iso st
    rfl
  · intro cb nowMs iso st s h1
    constructor <;> simp [Full.updateCounter, h1]
  · intro cfg b req st created hm ha hmfl hcr hthrows hins
    have hEmpty : (Full.detectRules (messageText req.body)).isEmpty = false := by
      simp [Full.detectRules, hmfl]
    have hrec : Full.handler cfg b req st = Full.recordIncident cfg b req st := by
      simp [Full.handler, hm, ha, Full.tryBody, hEmpty]
    have hcu : Full.updateCounter b.counter b.nowMs b.nowIso
        (some (Full.realIpOf (messageText req.body) req)) st =
        (none, st,
          [Effect.counterSelect
            (Full.counterKey (Full.realIpOf (messageText req.body) req) b.nowMs)]) := by
      simp [Full.updateCounter, hthrows]
    have hrec2 : Full.recordIncident cfg b req st =
        Full.finishCritical cfg b req created st
          (((Full.storeEvidence cfg b ("inc-" ++ b.uuid1)).2 ++
            [Effect.incidentInsert (Full.mainIncidentOf cfg b req created)]) ++
           [Effect.counterSelect
             (Full.counterKey (Full.realIpOf (messageText req.body) req) b.nowMs)]) false := by
      rw [Full.recordIncident]
      simp only [hcr, hins, hmfl, hcu, Bool.false_eq_true, if_false, if_true]
    have hfin := finishCritical_parts cfg b req created st
      (((Full.storeEvidence cfg b ("inc-" ++ b.uuid1)).2 ++
        [Effect.incidentInsert (Full.mainIncidentOf cfg b req created)]) ++
       [Effect.counterSelect
         (Full.counterKey (Full.realIpOf (messageText req.body) req) b.nowMs)]) false
    rw [hrec, hrec2]
    refine ⟨?_, ?_, ?_⟩
    · rw [hfin.1]; rfl
    · rw [hfin.1]; rfl
    · rw [hfin.2]
      rw [bfInsertCount_append, bfInsertCount_append, bfInsertCount_storeEvidence,
        mainIncident_not_bf cfg b req created hmfl]
      rfl

/-- Counter behavior whose insert reports an error. -/
def cbInsErr : Full.CounterBehavior :=
  { selectErr := false, selectThrows := false, insertErr := true, updateErr := false }

/-- Counter behavior whose update reports an error. -/
def cbUpdErr : Full.CounterBehavior :=
  { selectErr := false, selectThrows := false, insertErr := false, updateErr := true }

/-- Counter behavior whose select throws. -/
def cbThrows : Full.CounterBehavior :=
  { selectErr := false, selectThrows := true, insertErr := false, updateErr := false }

/-- An existing counter row at count 2 for source 1.2.3.4 at the reference
time. -/
def egRow : CounterRow :=
  { counter_id := Full.counterKey "1.2.3.4" egT0, ip := "1.2.3.4",
    window_start := Full.windowStart egT0, count := 2, last_seen := "iso" }

/-- Full-variant behavior whose counter select throws. -/
def egBThrows : Full.Behavior :=
  { egB "a" 0 with counter := cbThrows }

/-- Witness for C9: a failed insert still returns 1 with nothing stored, a
failed update still returns 3 with the row left at 2, a missing source and a
throwing select return null, and with a throwing select the handler answers
201 without a brute-force incident. -/
theorem updateCounter_inmemory_count_and_null_witness :
    ((Full.updateCounter cbInsErr egT0 "iso" (some "1.2.3.4") []).1 = some 1 ∧
      (Full.updateCounter cbInsErr egT0 "iso" (some "1.2.3.4") []).2.1 = []) ∧
    ((Full.updateCounter cbUpdErr egT0 "iso" (some "1.2.3.4")
        [(Full.counterKey "1.2.3.4" egT0, egRow)]).1 = some 3 ∧
      (Full.updateCounter cbUpdErr egT0 "iso" (some "1.2.3.4")
        [(Full.counterKey "1.2.3.4" egT0, egRow)]).2.1 =
        [(Full.counterKey "1.2.3.4" egT0, egRow)]) ∧
    Full.updateCounter cbInsErr egT0 "iso" none [] = (none, [], []) ∧
    (Full.updateCounter cbThrows egT0 "iso" (some "1.2.3.4") []).1 = none ∧
    ((Full.handler egCfg egBThrows egReq []).1.statusCode = 201 ∧
      (Full.handler egCfg egBThrows egReq []).1.bruteForceFlag = false ∧
      bfInsertCount (Full.handler egCfg egBThrows egReq []).2.1 = 0) := by
  have h := updateCounter_inmemory_count_and_null
  refine ⟨?_, ?_, h.2.2.1 cbInsErr egT0 "iso" [], ?_, ?_⟩
  · have h1 := h.1 cbInsErr egT0 "iso" [] "1.2.3.4" rfl rfl rfl
    exact ⟨h1.1, h1.2 rfl⟩
  · have h2 := h.2.1 cbUpdErr egT0 "iso" [(Full.counterKey "1.2.3.4" egT0, egRow)]
      "1.2.3.4" egRow rfl rfl (by simp) (by decide)
    exact ⟨h2.1, h2.2 rfl⟩
  · exact (h.2.2.2.1 cbThrows egT0 "iso" [] "1.2.3.4" rfl).1
  · exact h.2.2.2.2 egCfg egBThrows egReq [] "2023-11-14T22:13:20.000Z"
      rfl (by decide) (by decide) (by decide) rfl rfl

/-- The evidence archiver never performs an incident insert. -/
theorem not_incInsert_storeEvidence (cfg : Full.Config) (b : Full.Behavior)
    (id : String) (inc : Incident) :
    Effect.incidentInsert inc ∉ (Full.storeEvidence cfg b id).2 := by
  rw [Full.storeEvidence]
  split
  · simp
  · split
    · simp
    · split <;> simp

/-- The attempt counter never performs an incident insert. -/
theorem not_incInsert_counter (cb : Full.CounterBehavior) (nowMs : Int) (iso : String)
    (ip : Option String) (st : CounterTable) (inc : Incident) :
    Effect.incidentInsert inc ∉ (Full.updateCounter cb nowMs iso ip st).2.2 := by
  rcases ip with _ | s
  · simp [Full.updateCounter]
  · rw [Full.updateCounter.eq_def]
    dsimp only
    split
    · simp
    · rcases hres : (if cb.selectErr = true then none
        else List.lookup (Full.counterKey s nowMs) st) with _ | row <;>
        simp only [hres] <;> simp

/-- The notifier never performs an incident insert. -/
theorem not_incInsert_notify (cfg : Full.Config) (t bo : String) (inc : Incident) :
    Effect.incidentInsert inc ∉ Full.notifyEffs cfg t bo := by
  rw [Full.notifyEffs]; split <;> simp

/-- An incident insert observed after the closing step was already present
before it (the step adds at most a notification). -/
theorem mem_finishCritical (cfg : Full.Config) (b : Full.Behavior) (req : Full.RequestEnv)
    (created : String) (st : CounterTable) (effs : List Effect) (flag : Bool) (inc : Incident) :
    Effect.incidentInsert inc ∈ (Full.finishCritical cfg b req created st effs flag).2.1 →
    Effect.incidentInsert inc ∈ effs := by
  rw [Full.finishCritical]
  dsimp only
  intro h
  rcases List.mem_append.mp h with h | h
  · exact h
  · exfalso
    revert h
    split
    · intro h
      exact not_incInsert_notify _ _ _ _ h
    · intro h
      simp at h

/-- C6: every incident either handler persists has a non-empty findings
sequence: in the full variant an inserted incident is either the ordinary
one, whose findings are the fired rules (non-empty on every insert path), or
the synthetic one, whose findings are exactly `["brute-force"]`; the simple
variant only ever inserts the ordinary incident. -/
theorem inserted_findings_nonempty_or_bruteforce :
    (∀ (cfg : Full.Config) (b : Full.Behavior) (req : Full.RequestEnv)
        (st : CounterTable) (inc : Incident),
      Effect.incidentInsert inc ∈ (Full.handler cfg b req st).2.1 →
      (inc.findings = (Full.detectRules (messageText req.body)).map Finding.rule ∧
        inc.findings ≠ []) ∨
      inc.findings = ["brute-force"]) ∧
    (∀ (cfg : Simple.Config) (b : Simple.Behavior) (req : Simple.RequestEnv)
        (inc : Incident),
      Effect.incidentInsert inc ∈ (Simple.handler cfg b req).2 →
      inc.findings = Simple.detectRules (messageText req.body) ∧ inc.findings ≠ []) := by
  constructor
  · intro cfg b req st inc hmem
    rw [Full.handler] at hmem
    split at hmem
    · simp at hmem
    · split at hmem
      · simp at hmem
      · rw [Full.tryBody] at hmem
        split at hmem
        case isTrue hEmp => simp at hmem
        case isFalse hEmp =>
          have hne : Full.detectRules (messageText req.body) ≠ [] := by
            simpa using hEmp
          have hmap : (Full.detectRules (messageText req.body)).map Finding.rule ≠ [] := by
            simpa using hne
          have hcE : Effect.incidentInsert inc ∉
              (Full.updateCounter b.counter b.nowMs b.nowIso
                (some (Full.realIpOf (messageText req.body) req)) st).2.2 :=
            not_incInsert_counter _ _ _ _ _ _
          rw [Full.recordIncident] at hmem
          dsimp only at hmem
          rcases hcr : Full.createdAt b req.body with _ | created
          · rw [hcr] at hmem
            dsimp only at hmem
            exact absurd hmem (not_incInsert_storeEvidence cfg b _ inc)
          · rw [hcr] at hmem
            dsimp only at hmem
            have hmain : Effect.incidentInsert inc ∈
                ((Full.storeEvidence cfg b ("inc-" ++ b.uuid1)).2 ++
                 [Effect.incidentInsert (Full.mainIncidentOf cfg b req created)]) →
                (inc.findings = (Full.detectRules (messageText req.body)).map Finding.rule ∧
                  inc.findings ≠ []) ∨ inc.findings = ["brute-force"] := by
              intro h
              rcases List.mem_append.mp h with h | h
              · exact absurd h (not_incInsert_storeEvidence cfg b _ inc)
              · left
                have h3 : inc = Full.mainIncidentOf cfg b req created := by
                  have h2 := List.mem_singleton.mp h
                  injection h2
                rw [h3]
                exact ⟨rfl, hmap⟩
            split at hmem
            · exact hmain hmem
            · split at hmem
              · rcases hc : (Full.updateCounter b.counter b.nowMs b.nowIso
                    (some (Full.realIpOf (messageText req.body) req)) st).1 with _ | n
                · rw [hc] at hmem
                  try dsimp only at hmem
                  have h2 := mem_finishCritical _ _ _ _ _ _ _ _ hmem
                  rcases List.mem_append.mp h2 with h3 | h3
                  · exact hmain h3
                  · exact absurd h3 hcE
                · rw [hc] at hmem
                  dsimp only at hmem
                  by_cases h3n : 3 ≤ n
                  · by_cases hbf : b.bfInsertErr = true
                    · rw [if_pos h3n, if_pos hbf] at hmem
                      dsimp only at hmem
                      rcases List.mem_append.mp hmem with h3 | h3
                      · rcases List.mem_append.mp h3 with h4 | h4
                        · exact hmain h4
                        · exact absurd h4 hcE
                      · right
                        have h5 : inc = Full.bfIncidentOf b
                            (Full.realIpOf (messageText req.body) req) n := by
                          have h4 := List.mem_singleton.mp h3
                          injection h4
                        rw [h5]
                        rfl
                    · rw [if_pos h3n, if_neg hbf] at hmem
                      have h2 := mem_finishCritical _ _ _ _ _ _ _ _ hmem
                      rcases List.mem_append.mp h2 with h3 | h3
                      · rcases List.mem_append.mp h3 with h4 | h4
                        · rcases List.mem_append.mp h4 with h5 | h5
                          · exact hmain h5
                          · exact absurd h5 hcE
                        · right
                          have h6 : inc = Full.bfIncidentOf b
                              (Full.realIpOf (messageText req.body) req) n := by
                            have h5 := List.mem_singleton.mp h4
                            injection h5
                          rw [h6]
                          rfl
                      · exact absurd h3 (not_incInsert_notify _ _ _ inc)
                  · rw [if_neg h3n] at hmem
                    have h2 := mem_finishCritical _ _ _ _ _ _ _ _ hmem
                    rcases List.mem_append.mp h2 with h3 | h3
                    · exact hmain h3
                    · exact absurd h3 hcE
              · have h2 := mem_finishCritical _ _ _ _ _ _ _ _ hmem
                exact hmain h2
  · intro cfg b req inc hmem
    rw [Simple.handler] at hmem
    split at hmem
    · simp at hmem
    · dsimp only at hmem
      split at hmem
      case h_1 t =>
        split at hmem
        case isTrue hEmp => simp at hmem
        case isFalse hEmp =>
          rcases List.mem_append.mp hmem with h | h
          · exfalso
            revert h
            rw [Simple.storeEvidence]
            split
            · simp
            · split
              · simp
              · split <;> simp
          · have h3 : inc = Simple.mainIncidentOf b req := by
              have h2 := List.mem_singleton.mp h
              injection h2
            rw [h3]
            constructor
            · rfl
            · show Simple.detectRules (messageText req.body) ≠ []
              simpa [messageText] using hEmp
      case h_2 => simp at hmem

/-- Configuration with no storage and no webhook, so the only effect of an
incident-bearing request is its insert. -/
def c6Cfg : Full.Config :=
  { supabaseConfigured := false, apiKey := some "secret", alertWebhook := "" }

/-- A string-body request whose text fires only the SQL-injection rule. -/
def c6Req : Full.RequestEnv :=
  { egReq with body := Json.str "inject" }

/-- Witness for C6: the incident persisted for an `inject` message carries
the fired rules, and the simple variant's persisted incident likewise. -/
theorem inserted_findings_nonempty_or_bruteforce_witness :
    (((Full.mainIncidentOf c6Cfg (egB "a" 0) c6Req "2023-11-14T22:13:20.000Z").findings =
        (Full.detectRules (messageText c6Req.body)).map Finding.rule ∧
      (Full.mainIncidentOf c6Cfg (egB "a" 0) c6Req "2023-11-14T22:13:20.000Z").findings ≠ []) ∨
      (Full.mainIncidentOf c6Cfg (egB "a" 0) c6Req "2023-11-14T22:13:20.000Z").findings =
        ["brute-force"]) ∧
    ((Simple.mainIncidentOf egSB egSReq).findings =
        Simple.detectRules (messageText egSReq.body) ∧
      (Simple.mainIncidentOf egSB egSReq).findings ≠ []) := by
  constructor
  · exact inserted_findings_nonempty_or_bruteforce.1 c6Cfg (egB "a" 0) c6Req []
      (Full.mainIncidentOf c6Cfg (egB "a" 0) c6Req "2023-11-14T22:13:20.000Z")
      (List.Mem.head _)
  · exact inserted_findings_nonempty_or_bruteforce.2 egSCfg egSB egSReq
      (Simple.mainIncidentOf egSB egSReq)
      (List.Mem.tail _ (List.Mem.tail _ (List.Mem.head _)))

/-- The closing step keeps the effects it is handed (so the main insert stays
in the trace) and responds 201. -/
theorem mem_main_finish (cfg : Full.Config) (b : Full.Behavior) (req : Full.RequestEnv)
    (created : String) (st : CounterTable) (effs : List Effect) (flag : Bool)
    (h : Effect.incidentInsert (Full.mainIncidentOf cfg b req created) ∈ effs) :
    (Full.finishCritical cfg b req created st effs flag).1.statusCode = 201 ∧
    Effect.incidentInsert (Full.mainIncidentOf cfg b req created) ∈
      (Full.finishCritical cfg b req created st effs flag).2.1 := by
  constructor
  · rw [(finishCritical_parts cfg b req created st effs flag).1]
    rfl
  · rw [Full.finishCritical]
    exact List.mem_append_left _ h

/-- An unparseable client timestamp (date normalization throwing its
`RangeError`) turns the findings-nonempty path into a 500 whose trace holds
only the archive attempt: no incident is inserted and no counter is touched. -/
theorem recordIncident_date_error (cfg : Full.Config) (b : Full.Behavior)
    (req : Full.RequestEnv) (st : CounterTable)
    (h : Full.createdAt b req.body = none) :
    Full.recordIncident cfg b req st =
      (.internalError "RangeError: Invalid time value",
       (Full.storeEvidence cfg b ("inc-" ++ b.uuid1)).2, st) := by
  rw [Full.recordIncident, h]

/-- C7: any blob-store failure during `storeEvidence` (upload error, missing
or failing URL generation, or a thrown exception) makes it return none in
both variants, and the request still inserts the incident (whose
`evidence_path` is none) and responds 201 — an archiver failure never fails
the request.  In the full variant the insert succeeds and `created_at`
normalization is hypothesized not to throw (an unparseable client timestamp
would 500 the request on its own, archiver or not, after the archive
attempt but before the insert). -/
theorem archiver_failure_best_effort :
    (∀ (cfg : Full.Config) (b : Full.Behavior) (id : String),
      cfg.supabaseConfigured = true →
      (b.uploadThrows = true ∨ b.uploadErr = true ∨ b.urlResult = none) →
      (Full.storeEvidence cfg b id).1 = none) ∧
    (∀ (b : Simple.Behavior) (id : String),
      (b.uploadThrows = true ∨ b.uploadErr = true ∨ b.urlErr = true ∨ b.signedUrl = none) →
      (Simple.storeEvidence b id).1 = none) ∧
    (∀ (cfg : Full.Config) (b : Full.Behavior) (req : Full.RequestEnv) (st : CounterTable)
        (created : String),
      req.method = "POST" → Full.authFails cfg req = false →
      Full.detectRules (messageText req.body) ≠ [] →
      Full.createdAt b req.body = some created →
      (Full.storeEvidence cfg b ("inc-" ++ b.uuid1)).1 = none →
      b.incidentInsertErr = false → b.bfInsertErr = false →
      (Full.handler cfg b req st).1.statusCode = 201 ∧
      Effect.incidentInsert (Full.mainIncidentOf cfg b req created) ∈
        (Full.handler cfg b req st).2.1 ∧
      (Full.mainIncidentOf cfg b req created).evidence_path = none) ∧
    (∀ (cfg : Simple.Config) (b : Simple.Behavior) (req : Simple.RequestEnv) (t : String),
      req.method = "POST" → messageVal req.body = Json.str t →
      Simple.detectRules t ≠ [] →
      (Simple.storeEvidence b ("inc-" ++ b.uuid1)).1 = none →
      (Simple.handler cfg b req).1.statusCode = 201 ∧
      Effect.incidentInsert (Simple.mainIncidentOf b req) ∈ (Simple.handler cfg b req).2 ∧
      (Simple.mainIncidentOf b req).evidence_path = none) := by
  refine ⟨?_, ?_, ?_, ?_⟩
  · intro cfg b id hcfg h
    rw [Full.storeEvidence]
    rcases hb1 : b.uploadThrows with _ | _ <;> rcases hb2 : b.uploadErr with _ | _
    all_goals simp [hcfg, hb1, hb2]
    all_goals simp_all
  · intro b id h
    rw [Simple.storeEvidence]
    rcases hb1 : b.uploadThrows with _ | _ <;> rcases hb2 : b.uploadErr with _ | _ <;>
      rcases hb3 : b.urlErr with _ | _
    all_goals simp [hb1, hb2, hb3]
    all_goals simp_all
  · intro cfg b req st created hm ha hne hcr hev hins hbf
    have hEmpty : (Full.detectRules (messageText req.body)).isEmpty = false := by
      simpa using hne
    have hrec : Full.handler cfg b req st = Full.recordIncident cfg b req st := by
      simp [Full.handler, hm, ha, Full.tryBody, hEmpty]
    have hMainMem : Effect.incidentInsert (Full.mainIncidentOf cfg b req created) ∈
        (Full.storeEvidence cfg b ("inc-" ++ b.uuid1)).2 ++
        [Effect.incidentInsert (Full.mainIncidentOf cfg b req created)] :=
      List.mem_append_right _ (List.Mem.head _)
    rw [hrec, Full.recordIncident]
    rw [hcr]
    dsimp only
    rw [if_neg (by simp [hins])]
    by_cases hmfl : Full.matchFailedLogin (messageText req.body) = true
    · rw [if_pos hmfl]
      rcases hc : (Full.updateCounter b.counter b.nowMs b.nowIso
          (some (Full.realIpOf (messageText req.body) req)) st).1 with _ | n
      · dsimp only
        exact ⟨(mem_main_finish _ _ _ _ _ _ _ (List.mem_append_left _ hMainMem)).1,
          (mem_main_finish _ _ _ _ _ _ _ (List.mem_append_left _ hMainMem)).2, hev⟩
      · dsimp only
        by_cases h3n : 3 ≤ n
        · rw [if_pos h3n, if_neg (by simp [hbf])]
          exact ⟨(mem_main_finish _ _ _ _ _ _ _ (List.mem_append_left _
              (List.mem_append_left _ (List.mem_append_left _ hMainMem)))).1,
            (mem_main_finish _ _ _ _ _ _ _ (List.mem_append_left _
              (List.mem_append_left _ (List.mem_append_left _ hMainMem)))).2, hev⟩
        · rw [if_neg h3n]
          exact ⟨(mem_main_finish _ _ _ _ _ _ _ (List.mem_append_left _ hMainMem)).1,
            (mem_main_finish _ _ _ _ _ _ _ (List.mem_append_left _ hMainMem)).2, hev⟩
    · rw [if_neg hmfl]
      exact ⟨(mem_main_finish _ _ _ _ _ _ _ hMainMem).1,
        (mem_main_finish _ _ _ _ _ _ _ hMainMem).2, hev⟩
  · intro cfg b req t hm hmv hne hev
    rw [Simple.handler]
    rw [if_neg (by simp [hm])]
    dsimp only
    rw [hmv]
    dsimp only [jsToString]
    rw [if_neg (by simpa using hne)]
    exact ⟨rfl, List.mem_append_right _ (List.Mem.head _), hev⟩

/-- Full-variant behavior whose blob upload reports an error. -/
def egBUploadErr : Full.Behavior :=
  { egB "a" 0 with uploadErr := true }

/-- Simple-variant behavior whose signed-URL generation reports an error. -/
def egSBUrlErr : Simple.Behavior :=
  { egSB with urlErr := true }

/-- Witness for C7: with a failing upload the full variant still answers the
failed-login POST with a 201 whose incident (evidence-less) is inserted, and
likewise the simple variant with a failing signed URL. -/
theorem archiver_failure_best_effort_witness :
    (Full.storeEvidence egCfg egBUploadErr "inc-ua").1 = none ∧
    (Simple.storeEvidence egSBUrlErr "inc-ua").1 = none ∧
    ((Full.handler egCfg egBUploadErr egReq []).1.statusCode = 201 ∧
      Effect.incidentInsert
          (Full.mainIncidentOf egCfg egBUploadErr egReq "2023-11-14T22:13:20.000Z") ∈
        (Full.handler egCfg egBUploadErr egReq []).2.1 ∧
      (Full.mainIncidentOf egCfg egBUploadErr egReq
        "2023-11-14T22:13:20.000Z").evidence_path = none) ∧
    ((Simple.handler egSCfg egSBUrlErr egSReq).1.statusCode = 201 ∧
      Effect.incidentInsert (Simple.mainIncidentOf egSBUrlErr egSReq) ∈
        (Simple.handler egSCfg egSBUrlErr egSReq).2 ∧
      (Simple.mainIncidentOf egSBUrlErr egSReq).evidence_path = none) := by
  have h := archiver_failure_best_effort
  refine ⟨h.1 egCfg egBUploadErr "inc-ua" rfl (Or.inr (Or.inl rfl)),
    h.2.1 egSBUrlErr "inc-ua" (Or.inr (Or.inr (Or.inl rfl))),
    h.2.2.1 egCfg egBUploadErr egReq [] "2023-11-14T22:13:20.000Z" rfl (by decide)
      (by simp [Full.detectRules,
        (show Full.matchFailedLogin (messageText egReq.body) = true by decide)])
      (by decide) (by decide) rfl rfl,
    h.2.2.2 egSCfg egSBUrlErr egSReq "failed login from 9.9.9.9" rfl rfl (by decide) (by decide)⟩

/-- Counterexample for C8: the text `1.2.3.4567` contains the dotted-quad
substring `1.2.3.456` (four groups of one to three digits separated by
dots), yet the full variant's `extractIp` returns none, because its pattern
carries `\b` anchors and the digit `7` sits flush against the quad.  The
simple variant's pattern has no anchors, and its `extractIp` does return
that contained quad on the same text, so the two variants genuinely differ
and the claim's unqualified first-occurrence reading fails only for the
full one. -/
theorem extractIp_first_quad_cex :
    Full.extractIp "1.2.3.4567" = none ∧
    listContainsSub ("1.2.3.4567".data) ("1.2.3.456".data) = true ∧
    isQuad ("1.2.3.456".data) = true ∧
    Simple.extractIp "1.2.3.4567" = some "1.2.3.456" := by
  decide

/-- Characterization of the digit-run split: it decomposes the list, the run is all digits, and the remainder does not start with a digit. -/
theorem digitsSplit_spec : ∀ (cs : List Char),
    cs = (digitsSplit cs).1 ++ (digitsSplit cs).2 ∧
    (∀ c ∈ (digitsSplit cs).1, c.isDigit = true) ∧
    (((digitsSplit cs).2).headD ' ').isDigit = false := by
  intro cs
  induction cs with
  | nil =>
    refine ⟨rfl, ?_, by decide⟩
    intro c h
    cases h
  | cons c rest ih =>
    by_cases h : c.isDigit = true
    · have key : digitsSplit (c :: rest) =
          (c :: (digitsSplit rest).1, (digitsSplit rest).2) := by
        simp [digitsSplit, h]
      refine ⟨?_, ?_, ?_⟩ <;> rw [key]
      · exact congrArg (List.cons c) ih.1
      · intro x hx
        rcases List.mem_cons.mp hx with hx | hx
        · rw [hx]; exact h
        · exact ih.2.1 x hx
      · exact ih.2.2
    · have key : digitsSplit (c :: rest) = ([], c :: rest) := by
        simp [digitsSplit, h]
      refine ⟨?_, ?_, ?_⟩ <;> rw [key]
      · rfl
      · intro x hx
        cases hx
      · show c.isDigit = false
        simpa using h

/-- The digit-run split of an all-digit block followed by a non-digit boundary recovers exactly that block. -/
theorem digitsSplit_append : ∀ (d r : List Char),
    (∀ c ∈ d, c.isDigit = true) → ((r.headD ' ').isDigit = false) →
    digitsSplit (d ++ r) = (d, r) := by
  intro d
  induction d with
  | nil =>
    intro r _ hr
    rcases r with _ | ⟨c, rest⟩
    · rfl
    · have hc : c.isDigit = false := hr
      show digitsSplit (c :: rest) = ([], c :: rest)
      simp [digitsSplit, hc]
  | cons c rest ih =>
    intro r hd hr
    have hc : c.isDigit = true := hd c (by simp)
    show digitsSplit (c :: (rest ++ r)) = (c :: rest, r)
    simp [digitsSplit, hc, ih r (fun x hx => hd x (by simp [hx])) hr]

/-- Indexing an append below the left length reads the left list. -/
theorem getD_append_lt : ∀ (pre suf : List Char) (i : Nat), i < pre.length →
    (pre ++ suf).getD i ' ' = pre.getD i ' ' := by
  intro pre
  induction pre with
  | nil => intro suf i h; cases h
  | cons c rest ih =>
    intro suf i h
    rcases i with _ | j
    · rfl
    · show (rest ++ suf).getD j ' ' = rest.getD j ' '
      exact ih suf j (by simpa using h)

/-- Indexing an append at the left length reads the first right element. -/
theorem getD_append_length : ∀ (pre : List Char) (c : Char) (suf : List Char),
    ((pre ++ c :: suf).getD pre.length ' ') = c := by
  intro pre
  induction pre with
  | nil => intro c suf; rfl
  | cons a rest ih => intro c suf; exact ih c suf

/-- Digits are word characters, contrapositively. -/
theorem notWord_notDigit : ∀ (c : Char), isWordChar c = false → c.isDigit = false := by
  intro c h
  simp [isWordChar, Char.isAlphanum] at h
  exact h.1.2

/-- Four digit groups of length one to three joined by dots form a dotted quad. -/
theorem isQuad_build (d1 d2 d3 d4 : List Char)
    (h1 : ∀ c ∈ d1, c.isDigit = true) (n1 : d1 ≠ []) (l1 : d1.length ≤ 3)
    (h2 : ∀ c ∈ d2, c.isDigit = true) (n2 : d2 ≠ []) (l2 : d2.length ≤ 3)
    (h3 : ∀ c ∈ d3, c.isDigit = true) (n3 : d3 ≠ []) (l3 : d3.length ≤ 3)
    (h4 : ∀ c ∈ d4, c.isDigit = true) (n4 : d4 ≠ []) (l4 : d4.length ≤ 3) :
    isQuad (d1 ++ '.' :: (d2 ++ '.' :: (d3 ++ '.' :: d4))) = true := by
  have e1 := digitsSplit_append d1 ('.' :: (d2 ++ '.' :: (d3 ++ '.' :: d4))) h1 rfl
  have e2 := digitsSplit_append d2 ('.' :: (d3 ++ '.' :: d4)) h2 rfl
  have e3 := digitsSplit_append d3 ('.' :: d4) h3 rfl
  have e4 : digitsSplit (d4 ++ []) = (d4, []) := digitsSplit_append d4 [] h4 rfl
  rw [List.append_nil] at e4
  simp [isQuad, e1, e2, e3, e4, n1, n2, n3, n4, l1, l2, l3, l4]

/-- A dotted quad decomposes into its four digit groups. -/
theorem isQuad_decomp (s : List Char) (h : isQuad s = true) :
    ∃ d1 d2 d3 d4, s = d1 ++ '.' :: (d2 ++ '.' :: (d3 ++ '.' :: d4)) ∧
      (∀ c ∈ d1, c.isDigit = true) ∧ d1 ≠ [] ∧ d1.length ≤ 3 ∧
      (∀ c ∈ d2, c.isDigit = true) ∧ d2 ≠ [] ∧ d2.length ≤ 3 ∧
      (∀ c ∈ d3, c.isDigit = true) ∧ d3 ≠ [] ∧ d3.length ≤ 3 ∧
      (∀ c ∈ d4, c.isDigit = true) ∧ d4 ≠ [] ∧ d4.length ≤ 3 := by
  unfold isQuad at h
  split at h
  case h_2 => cases h
  case h_1 x1 d1 r1 heq1 =>
    split at h
    case h_2 => simp at h
    case h_1 x2 d2 r2 heq2 =>
      split at h
      case h_2 => simp at h
      case h_1 x3 d3 r3 heq3 =>
        have s1 := digitsSplit_spec s
        rw [heq1] at s1
        have s2 := digitsSplit_spec r1
        rw [heq2] at s2
        have s3 := digitsSplit_spec r2
        rw [heq3] at s3
        have s4 := digitsSplit_spec r3
        dsimp only at s1 s2 s3
        simp only [Bool.and_eq_true, Bool.not_eq_true', decide_eq_true_eq,
          List.isEmpty_eq_false, List.isEmpty_eq_true] at h
        obtain ⟨⟨hn1, hl1⟩, ⟨hn2, hl2⟩, ⟨hn3, hl3⟩, ⟨hn4, hl4⟩, hrestnil⟩ := h
        refine ⟨d1, d2, d3, (digitsSplit r3).1, ?_, s1.2.1, hn1, hl1, s2.2.1, hn2, hl2,
          s3.2.1, hn3, hl3, s4.2.1, hn4, hl4⟩
        have e4 : r3 = (digitsSplit r3).1 := by
          conv =>
            lhs
            rw [s4.1]
          rw [hrestnil, List.append_nil]
        rw [s1.1, s2.1, s3.1, ← e4]

/-- Completeness of the anchored matcher: a dotted-quad prefix of the suffix followed by a non-word character (or the end) is matched. -/
theorem quadAt_complete (cs : List Char) (len : Nat)
    (hq : isQuad (cs.take len) = true)
    (hb : isWordChar ((cs.drop len).headD ' ') = false) :
    Full.quadAt cs = some (cs.take len) := by
  obtain ⟨d1, d2, d3, d4, heq, hd1, hn1, hl1, hd2, hn2, hl2, hd3, hn3, hl3,
    hd4, hn4, hl4⟩ := isQuad_decomp _ hq
  have hcs : cs = (d1 ++ '.' :: (d2 ++ '.' :: (d3 ++ '.' :: d4))) ++ cs.drop len := by
    conv_lhs => rw [← List.take_append_drop len cs]
    rw [heq]
  have hRhead : ((cs.drop len).headD ' ').isDigit = false := notWord_notDigit _ hb
  have e1 : digitsSplit cs =
      (d1, '.' :: (d2 ++ '.' :: (d3 ++ '.' :: (d4 ++ cs.drop len)))) := by
    conv_lhs => rw [hcs]
    have hnorm : (d1 ++ '.' :: (d2 ++ '.' :: (d3 ++ '.' :: d4))) ++ cs.drop len =
        d1 ++ '.' :: (d2 ++ '.' :: (d3 ++ '.' :: (d4 ++ cs.drop len))) := by
      simp
    rw [hnorm]
    exact digitsSplit_append _ _ hd1 rfl
  have e2 : digitsSplit (d2 ++ '.' :: (d3 ++ '.' :: (d4 ++ cs.drop len))) =
      (d2, '.' :: (d3 ++ '.' :: (d4 ++ cs.drop len))) :=
    digitsSplit_append _ _ hd2 rfl
  have e3 : digitsSplit (d3 ++ '.' :: (d4 ++ cs.drop len)) =
      (d3, '.' :: (d4 ++ cs.drop len)) :=
    digitsSplit_append _ _ hd3 rfl
  have e4 : digitsSplit (d4 ++ cs.drop len) = (d4, cs.drop len) :=
    digitsSplit_append _ _ hd4 hRhead
  have hb2 : isWordChar (cs[len]?.getD ' ') = false := by
    simpa using hb
  simp [Full.quadAt, e1, e2, e3, e4, hn1, Nat.not_lt.mpr hl1, hn2, Nat.not_lt.mpr hl2,
    hn3, Nat.not_lt.mpr hl3, hn4, Nat.not_lt.mpr hl4, hb, hb2, heq]

/-- Soundness of the anchored matcher: a match is a dotted-quad prefix whose following character, if any, is not a word character. -/
theorem quadAt_sound (cs q : List Char) (h : Full.quadAt cs = some q) :
    ∃ r, cs = q ++ r ∧ isQuad q = true ∧ isWordChar (r.headD ' ') = false := by
  unfold Full.quadAt at h
  split at h
  case h_2 => cases h
  case h_1 x1 d1 r1 heq1 =>
    split at h
    next => simp at h
    next hc1 =>
      split at h
      case h_2 => cases h
      case h_1 x2 d2 r2 heq2 =>
        split at h
        next => simp at h
        next hc2 =>
          split at h
          case h_2 => cases h
          case h_1 x3 d3 r3 heq3 =>
            split at h
            next => simp at h
            next hc3 =>
              split at h
              next d4 rest heq4 =>
                simp only [Bool.or_eq_true, Bool.not_eq_true] at h
                simp at h
                obtain ⟨⟨hn4, hl4⟩, hb5, hqe⟩ := h
                have s1 := digitsSplit_spec cs
                rw [heq1] at s1
                have s2 := digitsSplit_spec r1
                rw [heq2] at s2
                have s3 := digitsSplit_spec r2
                rw [heq3] at s3
                have s4 := digitsSplit_spec r3
                rw [heq4] at s4
                dsimp only at s1 s2 s3 s4
                simp only [Bool.or_eq_true, not_or, Bool.not_eq_true,
                  List.isEmpty_eq_false, decide_eq_true_eq] at hc1 hc2 hc3
                refine ⟨rest, ?_, ?_, ?_⟩
                · rw [← hqe, s1.1, s2.1, s3.1]
                  conv_lhs => rw [s4.1]
                  simp
                · rw [← hqe]
                  exact isQuad_build d1 d2 d3 d4
                    s1.2.1 hc1.1 (Nat.not_lt.mp hc1.2)
                    s2.2.1 hc2.1 (Nat.not_lt.mp hc2.2)
                    s3.2.1 hc3.1 (Nat.not_lt.mp hc3.2)
                    s4.2.1 hn4 hl4
                · simpa using hb5

/-- Whether the character just before the current scan position is a word
character (false at the start of the text). -/
def lastWord (pre : List Char) : Bool :=
  isWordChar (pre.getD (pre.length - 1) ' ')

/-- Spec-side occurrence: position `i` of `cs` starts a word-boundary
delimited dotted-quad of length `len`. -/
def delimQuad (cs : List Char) (i len : Nat) : Bool :=
  boundaryLeft cs i && isQuad ((cs.drop i).take len) &&
    !(isWordChar (((cs.drop i).drop len).headD ' '))

/-- The left word boundary at a position is the negation of the word-ness of the preceding character. -/
theorem boundaryLeft_append (pre suf : List Char) :
    boundaryLeft (pre ++ suf) pre.length = !(lastWord pre) := by
  rcases pre with _ | ⟨c, rest⟩
  · simp [boundaryLeft, lastWord, isWordChar]
  · have hlt : (c :: rest).length - 1 < (c :: rest).length := by simp
    rw [boundaryLeft, lastWord, getD_append_lt _ _ _ hlt]
    have h1 : ((c :: rest).length == 0) = false := by simp
    rw [h1, Bool.false_or]

/-- Extending the processed prefix by one character updates the boundary state to that character. -/
theorem lastWord_append (pre : List Char) (c : Char) :
    lastWord (pre ++ [c]) = isWordChar c := by
  have hg := getD_append_length pre c []
  simp only [lastWord, List.length_append, List.length_cons, List.length_nil,
    Nat.add_sub_cancel]
  exact congrArg isWordChar hg

/-- No delimited quad starts at or beyond the end of the text. -/
theorem delimQuad_ge_length (cs : List Char) (j len : Nat) (h : cs.length ≤ j) :
    delimQuad cs j len = false := by
  have hd : cs.drop j = [] := List.drop_eq_nil_of_le h
  have hq : isQuad [] = false := rfl
  simp [delimQuad, hd, hq]

/-- A delimited-quad occurrence at the frontier position, phrased on the unprocessed suffix. -/
theorem delim_at_pos (pre suf : List Char) (len : Nat) :
    delimQuad (pre ++ suf) pre.length len =
      (!(lastWord pre) && isQuad (suf.take len) &&
        !(isWordChar ((suf.drop len).headD ' '))) := by
  rw [delimQuad, boundaryLeft_append, List.drop_left]

/-- Correctness of the leftmost scan: a result is the earliest delimited quad at or after the frontier, and a failed scan means there is none. -/
theorem scanQuad_go : ∀ (suf pre : List Char),
    (∀ q, Full.scanQuad (lastWord pre) suf = some q →
      ∃ i, pre.length ≤ i ∧
        delimQuad (pre ++ suf) i q.length = true ∧
        q = ((pre ++ suf).drop i).take q.length ∧
        ∀ j, pre.length ≤ j → j < i → ∀ len2, delimQuad (pre ++ suf) j len2 = false) ∧
    (Full.scanQuad (lastWord pre) suf = none →
      ∀ j, pre.length ≤ j → ∀ len2, delimQuad (pre ++ suf) j len2 = false) := by
  intro suf
  induction suf with
  | nil =>
    intro pre
    constructor
    · intro q h
      simp [Full.scanQuad] at h
    · intro _ j hj len2
      refine delimQuad_ge_length _ _ _ ?_
      simpa using hj
  | cons c rest ih =>
    intro pre
    have hsplit : pre ++ c :: rest = (pre ++ [c]) ++ rest := by
      simp
    have hlw := lastWord_append pre c
    have ihc := ih (pre ++ [c])
    rw [hlw, ← hsplit] at ihc
    have hlen1 : (pre ++ [c]).length = pre.length + 1 := by
      simp
    rw [hlen1] at ihc
    rcases hw : lastWord pre with _ | _
    · -- previous character not a word character: the position is tried
      rcases hqa : Full.quadAt (c :: rest) with _ | q0
      · -- no quad here: the scanner moves on
        have hscan : Full.scanQuad false (c :: rest) =
            Full.scanQuad (isWordChar c) rest := by
          rw [Full.scanQuad]
          simp [hqa]
        have hnohere : ∀ len2, delimQuad (pre ++ c :: rest) pre.length len2 = false := by
          intro len2
          rw [delim_at_pos]
          by_cases hiq : isQuad ((c :: rest).take len2) = true
          · by_cases hbd : isWordChar (((c :: rest).drop len2).headD ' ') = false
            · exact absurd (quadAt_complete (c :: rest) len2 hiq hbd) (by simp [hqa])
            · simp only [Bool.not_eq_false] at hbd
              have hbd2 : isWordChar ((c :: rest)[len2]?.getD ' ') = true := by
                simpa using hbd
              simp [hbd2]
          · simp [Bool.eq_false_iff.mpr hiq]
        constructor
        · intro q h
          rw [hscan] at h
          obtain ⟨i, hi, hd, hq, hmin⟩ := ihc.1 q h
          refine ⟨i, by omega, hd, hq, ?_⟩
          intro j hj hji len2
          rcases Nat.eq_or_lt_of_le hj with hj2 | hj2
          · rw [← hj2]
            exact hnohere len2
          · exact hmin j hj2 hji len2
        · intro h j hj len2
          rw [hscan] at h
          rcases Nat.eq_or_lt_of_le hj with hj2 | hj2
          · rw [← hj2]
            exact hnohere len2
          · exact ihc.2 h j hj2 len2
      · -- a quad matches right here: the scan stops with it
        have hscan : Full.scanQuad false (c :: rest) = some q0 := by
          rw [Full.scanQuad]
          simp [hqa]
        constructor
        · intro q h
          rw [hscan] at h
          have hq0 : q0 = q := Option.some.inj h
          subst hq0
          obtain ⟨r, hr, hiq, hbd⟩ := quadAt_sound _ _ hqa
          have htake : (c :: rest).take q0.length = q0 := by
            rw [hr]
            exact List.take_left _ _
          have hdrop : (c :: rest).drop q0.length = r := by
            rw [hr]
            exact List.drop_left _ _
          refine ⟨pre.length, Nat.le_refl _, ?_, ?_, ?_⟩
          · rw [delim_at_pos, hw, htake, hdrop]
            have hbd2 : isWordChar (r.head?.getD ' ') = false := by
              cases r
              · exact hbd
              · exact hbd
            simp [hiq, hbd2]
          · rw [List.drop_left, htake]
          · intro j hj hji _
            omega
        · intro h
          rw [hscan] at h
          cases h
    · -- previous character is a word character: no boundary, move on
      have hscan : Full.scanQuad true (c :: rest) =
          Full.scanQuad (isWordChar c) rest := by
        rw [Full.scanQuad]
        simp
      have hnohere : ∀ len2, delimQuad (pre ++ c :: rest) pre.length len2 = false := by
        intro len2
        rw [delim_at_pos, hw]
        rfl

      constructor
      · intro q h
        rw [hscan] at h
        obtain ⟨i, hi, hd, hq, hmin⟩ := ihc.1 q h
        refine ⟨i, by omega, hd, hq, ?_⟩
        intro j hj hji len2
        rcases Nat.eq_or_lt_of_le hj with hj2 | hj2
        · rw [← hj2]
          exact hnohere len2
        · exact hmin j hj2 hji len2
      · intro h j hj len2
        rw [hscan] at h
        rcases Nat.eq_or_lt_of_le hj with hj2 | hj2
        · rw [← hj2]
          exact hnohere len2
        · exact ihc.2 h j hj2 len2

/-- Prepending an all-digit block to a list extends its leading digit run by
exactly that block. -/
theorem digitsSplit_append_digits : ∀ (e r : List Char),
    (∀ c ∈ e, c.isDigit = true) →
    digitsSplit (e ++ r) = (e ++ (digitsSplit r).1, (digitsSplit r).2) := by
  intro e
  induction e with
  | nil => intro r _; rfl
  | cons c rest ih =>
    intro r hd
    have hc : c.isDigit = true := hd c (by simp)
    show digitsSplit (c :: (rest ++ r)) = (c :: rest ++ (digitsSplit r).1, (digitsSplit r).2)
    simp [digitsSplit, hc, ih r (fun x hx => hd x (by simp [hx]))]

/-- A dotted-quad prefix forces the shape of the whole list: the four digit
groups followed by the remainder of the list. -/
theorem squad_prefix_struct (cs : List Char) (len : Nat)
    (hq : isQuad (cs.take len) = true) :
    ∃ e1 e2 e3 e4,
      cs = e1 ++ '.' :: (e2 ++ '.' :: (e3 ++ '.' :: (e4 ++ cs.drop len))) ∧
      cs.take len = e1 ++ '.' :: (e2 ++ '.' :: (e3 ++ '.' :: e4)) ∧
      (∀ c ∈ e1, c.isDigit = true) ∧ e1 ≠ [] ∧ e1.length ≤ 3 ∧
      (∀ c ∈ e2, c.isDigit = true) ∧ e2 ≠ [] ∧ e2.length ≤ 3 ∧
      (∀ c ∈ e3, c.isDigit = true) ∧ e3 ≠ [] ∧ e3.length ≤ 3 ∧
      (∀ c ∈ e4, c.isDigit = true) ∧ e4 ≠ [] ∧ e4.length ≤ 3 := by
  obtain ⟨e1, e2, e3, e4, heq, hd1, hn1, hl1, hd2, hn2, hl2, hd3, hn3, hl3,
    hd4, hn4, hl4⟩ := isQuad_decomp _ hq
  refine ⟨e1, e2, e3, e4, ?_, heq, hd1, hn1, hl1, hd2, hn2, hl2, hd3, hn3, hl3,
    hd4, hn4, hl4⟩
  conv_lhs => rw [← List.take_append_drop len cs]
  rw [heq]
  simp

/-- The digit-run chain the simple matcher walks on a list with a
dotted-quad prefix: the first three groups are forced, and the fourth run
extends the quad's last group by whatever digits follow the prefix. -/
theorem squad_chain (cs : List Char) (len : Nat)
    (hq : isQuad (cs.take len) = true) :
    ∃ e1 e2 e3 e4,
      cs.take len = e1 ++ '.' :: (e2 ++ '.' :: (e3 ++ '.' :: e4)) ∧
      (∀ c ∈ e1, c.isDigit = true) ∧ e1 ≠ [] ∧ e1.length ≤ 3 ∧
      (∀ c ∈ e2, c.isDigit = true) ∧ e2 ≠ [] ∧ e2.length ≤ 3 ∧
      (∀ c ∈ e3, c.isDigit = true) ∧ e3 ≠ [] ∧ e3.length ≤ 3 ∧
      (∀ c ∈ e4, c.isDigit = true) ∧ e4 ≠ [] ∧ e4.length ≤ 3 ∧
      digitsSplit cs =
        (e1, '.' :: (e2 ++ '.' :: (e3 ++ '.' :: (e4 ++ cs.drop len)))) ∧
      digitsSplit (e2 ++ '.' :: (e3 ++ '.' :: (e4 ++ cs.drop len))) =
        (e2, '.' :: (e3 ++ '.' :: (e4 ++ cs.drop len))) ∧
      digitsSplit (e3 ++ '.' :: (e4 ++ cs.drop len)) =
        (e3, '.' :: (e4 ++ cs.drop len)) ∧
      digitsSplit (e4 ++ cs.drop len) =
        (e4 ++ (digitsSplit (cs.drop len)).1, (digitsSplit (cs.drop len)).2) := by
  obtain ⟨e1, e2, e3, e4, hcs, htake, hd1, hn1, hl1, hd2, hn2, hl2, hd3, hn3, hl3,
    hd4, hn4, hl4⟩ := squad_prefix_struct cs len hq
  refine ⟨e1, e2, e3, e4, htake, hd1, hn1, hl1, hd2, hn2, hl2, hd3, hn3, hl3,
    hd4, hn4, hl4, ?_, ?_, ?_, ?_⟩
  · conv_lhs => rw [hcs]
    exact digitsSplit_append _ _ hd1 rfl
  · exact digitsSplit_append _ _ hd2 rfl
  · exact digitsSplit_append _ _ hd3 rfl
  · exact digitsSplit_append_digits _ _ hd4

/-- Soundness of the unanchored matcher: a match is a dotted-quad prefix of
the suffix, and the longest one — any other quad prefix is at most as long. -/
theorem squadAt_sound (cs q : List Char) (h : Simple.quadAt cs = some q) :
    isQuad q = true ∧ cs.take q.length = q ∧
    ∀ len2, isQuad (cs.take len2) = true → (cs.take len2).length ≤ q.length := by
  unfold Simple.quadAt at h
  split at h
  case h_2 => cases h
  case h_1 x1 d1 r1 heq1 =>
    split at h
    next => simp at h
    next hc1 =>
      split at h
      case h_2 => cases h
      case h_1 x2 d2 r2 heq2 =>
        split at h
        next => simp at h
        next hc2 =>
          split at h
          case h_2 => cases h
          case h_1 x3 d3 r3 heq3 =>
            split at h
            next => simp at h
            next hc3 =>
              rcases heq4 : digitsSplit r3 with ⟨d4, r4v⟩
              rw [heq4] at h
              dsimp only at h
              split at h
              next => cases h
              next hne4 =>
                have hqe : d1 ++ '.' :: (d2 ++ '.' :: (d3 ++ '.' :: d4.take 3)) = q :=
                  Option.some.inj h
                have hn4 : d4 ≠ [] := by
                  simpa using hne4
                have s1 := digitsSplit_spec cs
                rw [heq1] at s1
                have s2 := digitsSplit_spec r1
                rw [heq2] at s2
                have s3 := digitsSplit_spec r2
                rw [heq3] at s3
                have s4 := digitsSplit_spec r3
                rw [heq4] at s4
                dsimp only at s1 s2 s3 s4
                simp only [Bool.or_eq_true, not_or, Bool.not_eq_true,
                  List.isEmpty_eq_false, decide_eq_true_eq] at hc1 hc2 hc3
                have hpos4 : 0 < d4.length := List.length_pos.mpr hn4
                have hlen4 : (d4.take 3).length = min 3 d4.length := List.length_take _ _
                have hn4t : d4.take 3 ≠ [] := by
                  apply List.ne_nil_of_length_pos
                  rw [hlen4]
                  omega
                have hquad : isQuad q = true := by
                  rw [← hqe]
                  exact isQuad_build d1 d2 d3 (d4.take 3)
                    s1.2.1 hc1.1 (Nat.not_lt.mp hc1.2)
                    s2.2.1 hc2.1 (Nat.not_lt.mp hc2.2)
                    s3.2.1 hc3.1 (Nat.not_lt.mp hc3.2)
                    (fun c hc => s4.2.1 c (List.take_subset _ _ hc)) hn4t
                    (by rw [hlen4]; omega)
                have hd4split : d4 ++ r4v = d4.take 3 ++ (d4.drop 3 ++ r4v) := by
                  rw [← List.append_assoc, List.take_append_drop]
                have hcs : cs = q ++ (d4.drop 3 ++ r4v) := by
                  rw [← hqe, s1.1, s2.1, s3.1]
                  conv_lhs => rw [s4.1, hd4split]
                  simp
                refine ⟨hquad, ?_, ?_⟩
                · conv_lhs => rw [hcs]
                  exact List.take_left _ _
                · intro len2 h2
                  obtain ⟨f1, f2, f3, f4, htake2, hf1, hm1, hk1, hf2, hm2, hk2,
                    hf3, hm3, hk3, hf4, hm4, hk4, E1, E2, E3, E4⟩ :=
                    squad_chain cs len2 h2
                  have p1 := heq1.symm.trans E1
                  injection p1 with p1a p1b
                  injection p1b with _ p1r
                  rw [p1r] at heq2
                  have p2 := heq2.symm.trans E2
                  injection p2 with p2a p2b
                  injection p2b with _ p2r
                  rw [p2r] at heq3
                  have p3 := heq3.symm.trans E3
                  injection p3 with p3a p3b
                  injection p3b with _ p3r
                  rw [p3r] at heq4
                  have p4 := heq4.symm.trans E4
                  injection p4 with p4a _
                  have hle4 : f4.length ≤ d4.length := by
                    rw [p4a]
                    simp
                  rw [htake2, ← hqe, p1a, p2a, p3a]
                  simp only [List.length_append, List.length_cons, hlen4]
                  omega

/-- Completeness of the unanchored matcher: on a list with a dotted-quad
prefix it cannot fail, so a failed match means no quad starts here. -/
theorem squadAt_none (cs : List Char) (h : Simple.quadAt cs = none) :
    ∀ len, isQuad (cs.take len) = false := by
  intro len
  by_contra hq
  rw [Bool.not_eq_false] at hq
  obtain ⟨e1, e2, e3, e4, htake, hd1, hn1, hl1, hd2, hn2, hl2, hd3, hn3, hl3,
    hd4, hn4, hl4, E1, E2, E3, E4⟩ := squad_chain cs len hq
  rw [Simple.quadAt.eq_def] at h
  simp only [E1, E2, E3, E4] at h
  simp [List.isEmpty_eq_true, hn1, Nat.not_lt.mpr hl1, hn2, Nat.not_lt.mpr hl2,
    hn3, Nat.not_lt.mpr hl3, hn4] at h

/-- Correctness of the simple leftmost scan: a result is the unanchored
match at the earliest position where the matcher succeeds, and a failed scan
means it succeeds nowhere. -/
theorem sscanQuad_go : ∀ (suf pre : List Char),
    (∀ q, Simple.scanQuad suf = some q →
      ∃ i, pre.length ≤ i ∧
        Simple.quadAt ((pre ++ suf).drop i) = some q ∧
        ∀ j, pre.length ≤ j → j < i → Simple.quadAt ((pre ++ suf).drop j) = none) ∧
    (Simple.scanQuad suf = none →
      ∀ j, pre.length ≤ j → Simple.quadAt ((pre ++ suf).drop j) = none) := by
  intro suf
  induction suf with
  | nil =>
    intro pre
    constructor
    · intro q h
      simp [Simple.scanQuad] at h
    · intro _ j hj
      have hd : (pre ++ ([] : List Char)).drop j = [] := by
        apply List.drop_eq_nil_of_le
        simpa using hj
      rw [hd]
      rfl
  | cons c rest ih =>
    intro pre
    have hsplit : pre ++ c :: rest = (pre ++ [c]) ++ rest := by
      simp
    have ihc := ih (pre ++ [c])
    rw [← hsplit] at ihc
    have hlen1 : (pre ++ [c]).length = pre.length + 1 := by
      simp
    rw [hlen1] at ihc
    have hdropPre : (pre ++ c :: rest).drop pre.length = c :: rest :=
      List.drop_left _ _
    rcases hqa : Simple.quadAt (c :: rest) with _ | q0
    · have hscan : Simple.scanQuad (c :: rest) = Simple.scanQuad rest := by
        rw [Simple.scanQuad]
        simp [hqa]
      constructor
      · intro q h
        rw [hscan] at h
        obtain ⟨i, hi, hq, hmin⟩ := ihc.1 q h
        refine ⟨i, by omega, hq, ?_⟩
        intro j hj hji
        rcases Nat.eq_or_lt_of_le hj with hj2 | hj2
        · rw [← hj2, hdropPre]
          exact hqa
        · exact hmin j hj2 hji
      · intro h j hj
        rw [hscan] at h
        rcases Nat.eq_or_lt_of_le hj with hj2 | hj2
        · rw [← hj2, hdropPre]
          exact hqa
        · exact ihc.2 h j hj2
    · have hscan : Simple.scanQuad (c :: rest) = some q0 := by
        rw [Simple.scanQuad]
        simp [hqa]
      constructor
      · intro q h
        rw [hscan] at h
        have hq0 : q0 = q := Option.some.inj h
        subst hq0
        refine ⟨pre.length, Nat.le_refl _, ?_, ?_⟩
        · rw [hdropPre]
          exact hqa
        · intro j hj hji
          omega
      · intro h
        rw [hscan] at h
        cases h

/-- C8 as amended, split by variant: the full variant's `extractIp` (whose
`IP_RE` carries `\b` anchors) returns exactly the first word-boundary
delimited dotted-quad substring in left-to-right scan order, and returns
none when no delimited quad occurs — even if an undelimited one is present;
the simple variant's `extractIp` (no anchors) returns the dotted-quad
substring starting at the leftmost position where any quad starts, taking
the longest quad at that position (the greedy last group), and returns none
only when no position of the text starts a dotted quad. -/
theorem extractIp_first_delimited_quad (text : String) :
    ((∀ s, Full.extractIp text = some s →
      ∃ i, delimQuad text.data i s.data.length = true ∧
        s.data = (text.data.drop i).take s.data.length ∧
        ∀ j, j < i → ∀ len2, delimQuad text.data j len2 = false) ∧
    (Full.extractIp text = none →
      ∀ i len, delimQuad text.data i len = false)) ∧
    ((∀ s, Simple.extractIp text = some s →
      ∃ i, isQuad s.data = true ∧
        s.data = (text.data.drop i).take s.data.length ∧
        (∀ len2, isQuad ((text.data.drop i).take len2) = true →
          ((text.data.drop i).take len2).length ≤ s.data.length) ∧
        ∀ j, j < i → ∀ len2, isQuad ((text.data.drop j).take len2) = false) ∧
    (Simple.extractIp text = none →
      ∀ i len, isQuad ((text.data.drop i).take len) = false)) := by
  have hgo := scanQuad_go text.data []
  constructor
  · constructor
    · intro s hs
      rw [Full.extractIp] at hs
      split at hs
      · cases hs
      · rcases hm : Full.scanQuad false text.data with _ | q
        · rw [hm] at hs
          cases hs
        · rw [hm] at hs
          have hsq : s = String.mk q := (Option.some.inj hs).symm
          obtain ⟨i, _, hd, hq, hmin⟩ := hgo.1 q hm
          refine ⟨i, ?_, ?_, ?_⟩
          · rw [hsq]
            exact hd
          · rw [hsq]
            exact hq
          · intro j hj len2
            exact hmin j (Nat.zero_le _) hj len2
    · intro hn i len
      rw [Full.extractIp] at hn
      split at hn
      case isTrue ht =>
        have htext : text = "" := by
          simpa using ht
        have hdata : text.data = [] := by
          rw [htext]
        rw [hdata]
        exact delimQuad_ge_length [] i len (by simp)
      case isFalse =>
        rcases hm : Full.scanQuad false text.data with _ | q
        · exact hgo.2 hm i (Nat.zero_le _) len
        · rw [hm] at hn
          simp at hn
  · constructor
    · intro s hs
      rw [Simple.extractIp] at hs
      rcases hm : Simple.scanQuad text.data with _ | q
      · rw [hm] at hs
        cases hs
      · rw [hm] at hs
        have hsq : s = String.mk q := (Option.some.inj hs).symm
        have hsgo := (sscanQuad_go text.data []).1 q hm
        simp only [List.nil_append] at hsgo
        obtain ⟨i, _, hqa, hmin⟩ := hsgo
        obtain ⟨hqd, htk, hmax⟩ := squadAt_sound _ _ hqa
        refine ⟨i, ?_, ?_, ?_, ?_⟩
        · rw [hsq]
          exact hqd
        · rw [hsq]
          exact htk.symm
        · rw [hsq]
          intro len2 h2
          exact hmax len2 h2
        · intro j hj len2
          exact squadAt_none _ (hmin j (Nat.zero_le _) hj) len2
    · intro hn i len
      rw [Simple.extractIp] at hn
      rcases hm : Simple.scanQuad text.data with _ | q
      · have hsgo := (sscanQuad_go text.data []).2 hm
        simp only [List.nil_append] at hsgo
        exact squadAt_none _ (hsgo i (Nat.zero_le _)) len
      · rw [hm] at hn
        simp at hn

/-- Witness for the amended C8: in `ip 9.9.9.9 end` the full scanner returns
the delimited quad with no earlier occurrence; in `1.2.3.4567` — where the
full variant finds nothing — the simple scanner returns the contained quad
`1.2.3.456`, the longest at its position, with no quad starting earlier; and
a text with no quad at all has no occurrence for either variant. -/
theorem extractIp_first_delimited_quad_witness :
    (∃ i, delimQuad ("ip 9.9.9.9 end".data) i ("9.9.9.9" : String).data.length = true ∧
      ("9.9.9.9" : String).data =
        (("ip 9.9.9.9 end".data).drop i).take ("9.9.9.9" : String).data.length ∧
      ∀ j, j < i → ∀ len2, delimQuad ("ip 9.9.9.9 end".data) j len2 = false) ∧
    (∀ i len, delimQuad ("no ip at all".data) i len = false) ∧
    (∃ i, isQuad ("1.2.3.456" : String).data = true ∧
      ("1.2.3.456" : String).data =
        (("1.2.3.4567".data).drop i).take ("1.2.3.456" : String).data.length ∧
      (∀ len2, isQuad ((("1.2.3.4567".data).drop i).take len2) = true →
        ((("1.2.3.4567".data).drop i).take len2).length ≤
          ("1.2.3.456" : String).data.length) ∧
      ∀ j, j < i → ∀ len2, isQuad ((("1.2.3.4567".data).drop j).take len2) = false) ∧
    (∀ i len, isQuad ((("no ip at all".data).drop i).take len) = false) :=
  ⟨(extractIp_first_delimited_quad "ip 9.9.9.9 end").1.1 "9.9.9.9" (by decide),
   (extractIp_first_delimited_quad "no ip at all").1.2 (by decide),
   (extractIp_first_delimited_quad "1.2.3.4567").2.1 "1.2.3.456" (by decide),
   (extractIp_first_delimited_quad "no ip at all").2.2 (by decide)⟩
